import Mathlib

/-!
# DiepIO: the per-frame simulation loop of `main.c++`

A shallow embedding of the simulation code of `src/main.c++` and proofs about it.

Conventions of the embedding:

* `float` values are idealised as elements of a linearly ordered field `F`
  (the theorems that need square roots or trigonometry are stated over `ℝ`).
  Rounding is not modelled.
* The `<cmath>` functions the program calls (`sqrt`, `cos`, `sin`, `atan2`) and the
  constant `M_PI` are collected in a record `CMath F` passed to the functions that
  call them; `realMath` is the record of the real functions.
* The SFML value types the program uses (`Vector2f`, `FloatRect`, `CircleShape`,
  `RectangleShape`, the `Shape` base class, `Time`) are modelled by their
  observable fields; `vector<unique_ptr<Shape>>` and `vector<Bullet>` are lists.
* `rand()`, the keyboard, the mouse and the clock are inputs of a tick.
-/

namespace DiepIO

/-! ## Constants (main.c++ lines 10-16) -/

def mapWidth : Nat := 6400
def mapHeight : Nat := 4800
def viewWidth : Nat := 640
def viewHeight : Nat := 480

section Model

variable {F : Type} [LinearOrderedField F]

/-- The constant `playerSpeed = 0.3f`. -/
def playerSpeed : F := 3 / 10

/-- The constant `bulletSpeed = 4 * playerSpeed`. -/
def bulletSpeed : F := 4 * playerSpeed

/-- The constant `maxBulletDistance = 2.0f * viewWidth`. -/
def maxBulletDistance : F := 2 * (viewWidth : F)

/-! ## SFML value types -/

/-- The type `sf::Vector2f`. -/
@[ext]
structure Vector2f (F : Type) where
  x : F
  y : F

instance : Add (Vector2f F) := ⟨fun a b => ⟨a.x + b.x, a.y + b.y⟩⟩
instance : Sub (Vector2f F) := ⟨fun a b => ⟨a.x - b.x, a.y - b.y⟩⟩

/-- The operator `v / t` of `sf::Vector2f`. -/
def Vector2f.div (v : Vector2f F) (t : F) : Vector2f F := ⟨v.x / t, v.y / t⟩

/-- The operator `v * t` of `sf::Vector2f`. -/
def Vector2f.scale (v : Vector2f F) (t : F) : Vector2f F := ⟨v.x * t, v.y * t⟩

/-- The type `sf::FloatRect`. -/
structure FloatRect (F : Type) where
  left : F
  top : F
  width : F
  height : F

/-- The test `sf::Rect<T>::intersects` (SFML 2): the two rectangles, each normalised
so that a negative width or height is accepted, have an intersection of positive
width and positive height. -/
def FloatRect.intersects (a b : FloatRect F) : Bool :=
  let r1MinX := min a.left (a.left + a.width)
  let r1MaxX := max a.left (a.left + a.width)
  let r1MinY := min a.top (a.top + a.height)
  let r1MaxY := max a.top (a.top + a.height)
  let r2MinX := min b.left (b.left + b.width)
  let r2MaxX := max b.left (b.left + b.width)
  let r2MinY := min b.top (b.top + b.height)
  let r2MaxY := max b.top (b.top + b.height)
  let interLeft := max r1MinX r2MinX
  let interTop := max r1MinY r2MinY
  let interRight := min r1MaxX r2MaxX
  let interBottom := min r1MaxY r2MaxY
  decide (interLeft < interRight) && decide (interTop < interBottom)

/-- The class `sf::CircleShape`: radius and position (top-left anchor); no origin,
rotation or scale is ever set by the program. -/
@[ext]
structure CircleShape (F : Type) where
  radius : F
  position : Vector2f F

/-- The class `sf::RectangleShape`: size and position (top-left anchor). -/
structure RectangleShape (F : Type) where
  size : Vector2f F
  position : Vector2f F

/-- The base class `sf::Shape` with its two subclasses used by the program; the
`dynamic_cast`s of the source are matches on the constructor. -/
inductive Shape (F : Type) where
  | rectangle (r : RectangleShape F)
  | circle (c : CircleShape F)

/-- The centre of a circle shape with no origin set: the expression
`getPosition() + Vector2f(getRadius(), getRadius())` of lines 60 and 155. -/
def CircleShape.center (c : CircleShape F) : Vector2f F :=
  c.position + ⟨c.radius, c.radius⟩

/-- The method `move(offset)` of a circle shape. -/
def CircleShape.move (c : CircleShape F) (offset : Vector2f F) : CircleShape F :=
  { c with position := c.position + offset }

/-- The method `setPosition` of a circle shape. -/
def CircleShape.setPosition (c : CircleShape F) (p : Vector2f F) : CircleShape F :=
  { c with position := p }

/-- The method `getGlobalBounds`: the axis-aligned box of the shape at its position.
A circle's box is idealised as the `2r × 2r` square of the true circle. -/
def Shape.getGlobalBounds : Shape F → FloatRect F
  | .rectangle r => ⟨r.position.x, r.position.y, r.size.x, r.size.y⟩
  | .circle c => ⟨c.position.x, c.position.y, 2 * c.radius, 2 * c.radius⟩

/-! ## Obstacles (main.c++ lines 18-45) -/

/-- The function `randomShapeGenerator`. -/
def randomShapeGenerator (i : Nat) (position : Vector2f F) : Shape F :=
  if i < 70 then .rectangle ⟨⟨30, 30⟩, position⟩
  else .circle ⟨25, position⟩

/-- The function `checkCollision`: the loop returns at the first stored shape whose
box intersects the new shape's box. -/
def checkCollision (newShape : Shape F) : List (Shape F) → Bool
  | [] => false
  | shape :: shapes =>
    if newShape.getGlobalBounds.intersects shape.getGlobalBounds then true
    else checkCollision newShape shapes

/-- The function `checkShapeCollision`. -/
def checkShapeCollision (shape1 shape2 : Shape F) : Bool :=
  shape1.getGlobalBounds.intersects shape2.getGlobalBounds

/-- The `do ... while (collide)` placement loop of `main` (lines 183-191). Each pass
draws a candidate position with two calls of `rand()`; `draws` is the finite run of
those pairs that the pass can consume, and `none` says the loop is still spinning
when the run is used up. -/
def placeShape (i : Nat) (largeCircle : CircleShape F) (shapesToDraw : List (Shape F)) :
    List (Nat × Nat) → Option (List (Shape F))
  | [] => none
  | (rx, ry) :: draws =>
    let newPos : Vector2f F :=
      ⟨((rx % (mapWidth - 50) : Nat) : F), ((ry % (mapHeight - 50) : Nat) : F)⟩
    let newShape := randomShapeGenerator i newPos
    let collide := checkCollision newShape shapesToDraw
      || checkShapeCollision newShape (.circle largeCircle)
    if !collide then some (shapesToDraw ++ [newShape])
    else placeShape i largeCircle shapesToDraw draws

/-- The spawner top-up of `main` (lines 179-192): `randVariant` is the value of the
first `rand()` call. -/
def spawnShape (randVariant : Nat) (draws : List (Nat × Nat)) (largeCircle : CircleShape F)
    (shapesToDraw : List (Shape F)) : Option (List (Shape F)) :=
  if shapesToDraw.length < 100 then
    placeShape (randVariant % 100) largeCircle shapesToDraw draws
  else some shapesToDraw

/-! ## Vectors and bullets (main.c++ lines 47-84) -/

/-- The `<cmath>` functions the program calls, and the constant `M_PI`. -/
structure CMath (F : Type) where
  sqrt : F → F
  cos : F → F
  sin : F → F
  atan2 : F → F → F
  pi : F

/-- The function `normalize`. -/
def normalize (m : CMath F) (v : Vector2f F) : Vector2f F :=
  let length := m.sqrt (v.x * v.x + v.y * v.y)
  if length ≠ 0 then v.div length else ⟨0, 0⟩

/-- The struct `Bullet`. -/
@[ext]
structure Bullet (F : Type) where
  shape : CircleShape F
  direction : Vector2f F
  distanceTravelled : F

/-- The body of the loop of `fireBullet` for one turret: the bullet it pushes. -/
def newBullet (m : CMath F) (smallCircle : CircleShape F) (mousePosition : Vector2f F) :
    Bullet F :=
  let circleCenter := smallCircle.position + ⟨smallCircle.radius, smallCircle.radius⟩
  let bulletDirection := normalize m (mousePosition - circleCenter)
  let shape : CircleShape F := ⟨5, ⟨0, 0⟩⟩
  let shape := shape.setPosition (circleCenter - ⟨shape.radius, shape.radius⟩)
  { shape := shape, direction := bulletDirection.scale bulletSpeed, distanceTravelled := 0 }

/-- The function `fireBullet`: one `push_back` per turret, in the order of the loop. -/
def fireBullet (m : CMath F) (bullets : List (Bullet F)) (smallCircles : List (CircleShape F))
    (mousePosition : Vector2f F) : List (Bullet F) :=
  smallCircles.foldl
    (fun bullets smallCircle => bullets ++ [newBullet m smallCircle mousePosition]) bullets

/-- The first loop of `updateBullets` on one bullet: move it and add the length of its
velocity to the distance travelled. -/
def Bullet.advance (m : CMath F) (bullet : Bullet F) : Bullet F :=
  { bullet with
    shape := bullet.shape.move bullet.direction
    distanceTravelled := bullet.distanceTravelled +
      m.sqrt (bullet.direction.x * bullet.direction.x + bullet.direction.y * bullet.direction.y) }

/-- The predicate of the `remove_if` of `updateBullets`. -/
def Bullet.expired (bullet : Bullet F) : Bool :=
  decide (bullet.shape.position.x < 0) || decide (bullet.shape.position.x > (mapWidth : F)) ||
  decide (bullet.shape.position.y < 0) || decide (bullet.shape.position.y > (mapHeight : F)) ||
  decide (bullet.distanceTravelled > maxBulletDistance)

/-- The function `updateBullets`: `erase(remove_if(...))` keeps, in order, the bullets
that do not satisfy the predicate. -/
def updateBullets (m : CMath F) (bullets : List (Bullet F)) : List (Bullet F) :=
  (bullets.map (Bullet.advance m)).filter (fun bullet => !bullet.expired)

/-! ## The state of `main` and one pass of its loop (main.c++ lines 102-268) -/

/-- The variables of `main` that the simulation reads and writes. Times are
`sf::Time` values, a count of microseconds. -/
structure GameState (F : Type) where
  shapesToDraw : List (Shape F)
  bullets : List (Bullet F)
  largeCircle : CircleShape F
  smallCircles : List (CircleShape F)
  orbitRadius : F
  angle : F
  largeCircleCenter : Vector2f F
  collisionOccurred : Bool
  score : Int
  lastFireTime : Int

/-- What one pass of the loop reads from outside: the keyboard, the mouse button, the
clock (`clock.getElapsedTime()`, microseconds), the mouse position in world
coordinates at each of the two places it is read, and the values of `rand()`. -/
structure Input (F : Type) where
  keyA : Bool
  keyW : Bool
  keyD : Bool
  keyS : Bool
  mouseLeft : Bool
  currentTime : Int
  mouseAtFire : Vector2f F
  mouseAtAim : Vector2f F
  randVariant : Nat
  randDraws : List (Nat × Nat)

/-- The state of `main` when the loop is entered (lines 105-127). -/
def initialState : GameState F :=
  let largeCircle : CircleShape F := ⟨40, ⟨0, 0⟩⟩
  let largeCircle := largeCircle.setPosition
    ⟨((mapWidth / 2 : Nat) : F) - largeCircle.radius, ((mapHeight / 2 : Nat) : F) - largeCircle.radius⟩
  let smallCircle : CircleShape F := ⟨10, ⟨0, 0⟩⟩
  { shapesToDraw := []
    bullets := []
    largeCircle := largeCircle
    smallCircles := [smallCircle]
    orbitRadius := largeCircle.radius + smallCircle.radius
    angle := 0
    largeCircleCenter := ⟨((mapWidth / 2 : Nat) : F), ((mapHeight / 2 : Nat) : F)⟩
    collisionOccurred := false
    score := 0
    lastFireTime := 0 }

/-- Player movement (lines 142-155). -/
def movePlayer (inp : Input F) (s : GameState F) : GameState F :=
  let c := s.largeCircle
  let c := if inp.keyA then c.move ⟨-playerSpeed, 0⟩ else c
  let c := if inp.keyW then c.move ⟨0, -playerSpeed⟩ else c
  let c := if inp.keyD then c.move ⟨playerSpeed, 0⟩ else c
  let c := if inp.keyS then c.move ⟨0, playerSpeed⟩ else c
  { s with largeCircle := c, largeCircleCenter := c.position + ⟨c.radius, c.radius⟩ }

/-- The value `milliseconds(500)` in microseconds. -/
def fireInterval : Int := 500000

/-- Mouse shooting (lines 157-165). -/
def fireCheck (m : CMath F) (inp : Input F) (s : GameState F) : GameState F :=
  if inp.mouseLeft then
    if inp.currentTime - s.lastFireTime > fireInterval then
      { s with
        bullets := fireBullet m s.bullets s.smallCircles inp.mouseAtFire
        lastFireTime := inp.currentTime }
    else s
  else s

/-- The loop over the small circles (lines 172-176), from index `i` on. -/
def placeSmallCircles (m : CMath F) (largeCircleCenter : Vector2f F) (orbitRadius angle : F)
    (i : Nat) : List (CircleShape F) → List (CircleShape F)
  | [] => []
  | c :: cs =>
    let x := largeCircleCenter.x + orbitRadius * m.cos (angle + (i : F) * m.pi / 4)
    let y := largeCircleCenter.y + orbitRadius * m.sin (angle + (i : F) * m.pi / 4)
    c.setPosition ⟨x - c.radius, y - c.radius⟩ ::
      placeSmallCircles m largeCircleCenter orbitRadius angle (i + 1) cs

/-- Update of the small circles (lines 167-176). -/
def aimSmallCircles (m : CMath F) (inp : Input F) (s : GameState F) : GameState F :=
  let direction := inp.mouseAtAim - s.largeCircleCenter
  let angle := m.atan2 direction.y direction.x
  { s with
    angle := angle
    smallCircles := placeSmallCircles m s.largeCircleCenter s.orbitRadius angle 0 s.smallCircles }

/-- The scan of lines 195-202: whether some stored shape meets the large circle. -/
def playerCollides (largeCircle : CircleShape F) : List (Shape F) → Bool
  | [] => false
  | shape :: shapes =>
    if checkShapeCollision shape (.circle largeCircle) then true
    else playerCollides largeCircle shapes

/-- Collision between the large circle and the shapes (lines 194-202). -/
def playerSweep (s : GameState F) : GameState F :=
  if playerCollides s.largeCircle s.shapesToDraw then { s with collisionOccurred := true }
  else s

/-- The inner loop of lines 208-218 on one shape: the score to add at the first bullet
that meets the shape, `none` when no bullet meets it. -/
def bulletAward (shape : Shape F) : List (Bullet F) → Option Int
  | [] => none
  | bullet :: bullets =>
    if checkShapeCollision shape (.circle bullet.shape) then
      match shape with
      | .rectangle _ => some 1
      | .circle _ => some 2
    else bulletAward shape bullets

/-- The loop of lines 205-224: `it` is the index the iterator stands at; an erased
shape leaves the iterator at the same index, a kept one advances it. -/
def sweepShapes (bullets : List (Bullet F)) (shapes : List (Shape F)) (it : Nat) (score : Int) :
    List (Shape F) × Int :=
  if h : it < shapes.length then
    match bulletAward (shapes.get ⟨it, h⟩) bullets with
    | some points => sweepShapes bullets (shapes.eraseIdx it) it (score + points)
    | none => sweepShapes bullets shapes (it + 1) score
  else (shapes, score)
termination_by shapes.length - it
decreasing_by
  · simp only [List.length_eraseIdx, h, if_true]
    omega
  · omega

/-- Collision between the shapes and the bullets (lines 204-224). -/
def bulletSweep (s : GameState F) : GameState F :=
  let r := sweepShapes s.bullets s.shapesToDraw 0 s.score
  { s with shapesToDraw := r.1, score := r.2 }

/-- Score handling (lines 252-256): the second small circle is a copy of the first. -/
def upgradeSmallCircles (s : GameState F) : GameState F :=
  if s.score ≥ 50 ∧ s.smallCircles.length = 1 then
    match s.smallCircles with
    | secondSmallCircle :: _ => { s with smallCircles := s.smallCircles ++ [secondSmallCircle] }
    | [] => s
  else s

/-- The spawner top-up (lines 178-192) on the state. -/
def spawnPhase (inp : Input F) (s : GameState F) : Option (GameState F) :=
  match spawnShape inp.randVariant inp.randDraws s.largeCircle s.shapesToDraw with
  | none => none
  | some shapes => some { s with shapesToDraw := shapes }

/-- The call `updateBullets(bullets, window)` of line 227 on the state. -/
def bulletPhase (m : CMath F) (s : GameState F) : GameState F :=
  { s with bullets := updateBullets m s.bullets }

/-- One pass of the loop of `main`, in the order of the source: movement, shooting,
small circles, spawner, the two collision scans, `updateBullets`, score handling.
`none` when the placement loop does not end within the draws given. -/
def tick (m : CMath F) (inp : Input F) (s : GameState F) : Option (GameState F) :=
  let s := movePlayer inp s
  let s := fireCheck m inp s
  let s := aimSmallCircles m inp s
  match spawnPhase inp s with
  | none => none
  | some s =>
    let s := playerSweep s
    let s := bulletSweep s
    let s := bulletPhase m s
    some (upgradeSmallCircles s)

/-- The passes of the loop on a list of inputs, from state `s`: the state after the
last pass. -/
def runTicks (m : CMath F) : List (Input F) → GameState F → Option (GameState F)
  | [], s => some s
  | inp :: inps, s =>
    match tick m inp s with
    | none => none
    | some s' => runTicks m inps s'

/-- The states `main` can be in at the top of its loop: those some run of passes
reaches from the state the loop is entered in. -/
def Reachable (m : CMath F) (s : GameState F) : Prop :=
  ∃ inps : List (Input F), runTicks m inps initialState = some s

/-- Whether the box of a shape meets the box of some bullet of the list. -/
def hitByBullet (bullets : List (Bullet F)) (shape : Shape F) : Bool :=
  bullets.any (fun bullet =>
    shape.getGlobalBounds.intersects (Shape.circle bullet.shape).getGlobalBounds)

/-- The points the sweep awards for the shapes of a list. -/
def awardSum (bullets : List (Bullet F)) (shapes : List (Shape F)) : Int :=
  (shapes.map (fun shape => (bulletAward shape bullets).getD 0)).sum

/-- The clock readings at which a run of passes from state `s` fires: the values
`lastFireTime` takes each time a pass changes it. The run stops at a pass whose
placement loop does not end. -/
def shotTimes (m : CMath F) : List (Input F) → GameState F → List Int
  | [], _ => []
  | inp :: inps, s =>
    match tick m inp s with
    | none => []
    | some s' =>
      if s'.lastFireTime ≠ s.lastFireTime then s'.lastFireTime :: shotTimes m inps s'
      else shotTimes m inps s'

/-- A bullet as `n` calls of `updateBullets` leave it when none removes it: moved `n`
times by its velocity, the distance travelled raised `n` times by the velocity's
length. -/
def Bullet.after (m : CMath F) (n : Nat) (bullet : Bullet F) : Bullet F :=
  { shape :=
      { radius := bullet.shape.radius
        position := ⟨bullet.shape.position.x + (n : F) * bullet.direction.x,
          bullet.shape.position.y + (n : F) * bullet.direction.y⟩ }
    direction := bullet.direction
    distanceTravelled := bullet.distanceTravelled + (n : F) *
      m.sqrt (bullet.direction.x * bullet.direction.x + bullet.direction.y * bullet.direction.y) }

/-- Whether none of the first `n` calls of `updateBullets` finds the bullet expired. -/
def Bullet.survives (m : CMath F) (n : Nat) (bullet : Bullet F) : Bool :=
  (List.range n).all (fun k => !(bullet.after m (k + 1)).expired)

/-- Whether a shape is a `RectangleShape` (a Block). -/
def Shape.isRectangle : Shape F → Bool
  | .rectangle _ => true
  | .circle _ => false

/-- Whether a shape is a `CircleShape` (an Orb). -/
def Shape.isCircle : Shape F → Bool
  | .rectangle _ => false
  | .circle _ => true

end Model

/-- The real functions behind `<cmath>`: `atan2 y x` is the argument of `x + y i`. -/
noncomputable def realMath : CMath ℝ :=
  { sqrt := Real.sqrt
    cos := Real.cos
    sin := Real.sin
    atan2 := fun y x => Complex.arg ⟨x, y⟩
    pi := Real.pi }

/-- An input of a pass in which no key and no button is held; the placement loop is
given one draw. -/
def idleInput : Input ℝ :=
  { keyA := false, keyW := false, keyD := false, keyS := false, mouseLeft := false
    currentTime := 16000
    mouseAtFire := ⟨3300, 2400⟩
    mouseAtAim := ⟨3300, 2400⟩
    randVariant := 5
    randDraws := [(0, 0)] }

/-- The state after one pass with `idleInput` from the initial state: one rectangle
placed at (0, 0), the turret on the orbit towards the mouse. -/
def afterIdleTick : GameState ℝ :=
  { shapesToDraw := [.rectangle ⟨⟨30, 30⟩, ⟨0, 0⟩⟩]
    bullets := []
    largeCircle := ⟨40, ⟨3160, 2360⟩⟩
    smallCircles := [⟨10, ⟨3240, 2390⟩⟩]
    orbitRadius := 50
    angle := 0
    largeCircleCenter := ⟨3200, 2400⟩
    collisionOccurred := false
    score := 0
    lastFireTime := 0 }

/-- An input of a pass in which the key D and the mouse button are held and the clock
reads 600 ms. -/
def moveShotInput : Input ℝ :=
  { keyA := false, keyW := false, keyD := true, keyS := false, mouseLeft := true
    currentTime := 600000
    mouseAtFire := ⟨3300, 2400⟩
    mouseAtAim := ⟨3300, 2400⟩
    randVariant := 5
    randDraws := [(100, 100)] }

/-- An input of a pass in which the mouse button is held and the clock reads 600 ms. -/
def firstShotInput : Input ℝ :=
  { keyA := false, keyW := false, keyD := false, keyS := false, mouseLeft := true
    currentTime := 600000
    mouseAtFire := ⟨3300, 2400⟩
    mouseAtAim := ⟨3300, 2400⟩
    randVariant := 5
    randDraws := [(0, 0)] }

/-- The bullet `fireBullet` creates for the turret of `afterIdleTick` when the mouse is at
(3300, 2400): centred on the turret's centre (3250, 2400), velocity (6/5, 0). -/
noncomputable def movedShotBullet : Bullet ℝ :=
  { shape := ⟨5, ⟨3245, 2395⟩⟩, direction := ⟨6 / 5, 0⟩, distanceTravelled := 0 }

/-- The state after the pass with `moveShotInput` from `afterIdleTick`: a second
rectangle placed at (100, 100), the player moved by `playerSpeed` to the right, the
bullet of that pass moved once by its velocity. -/
noncomputable def afterMoveShot : GameState ℝ :=
  { shapesToDraw := [.rectangle ⟨⟨30, 30⟩, ⟨0, 0⟩⟩, .rectangle ⟨⟨30, 30⟩, ⟨100, 100⟩⟩]
    bullets := [{ shape := ⟨5, ⟨3245 + 6 / 5, 2395⟩⟩, direction := ⟨6 / 5, 0⟩,
                  distanceTravelled := 6 / 5 }]
    largeCircle := ⟨40, ⟨3160 + 3 / 10, 2360⟩⟩
    smallCircles := [⟨10, ⟨3240 + 3 / 10, 2390⟩⟩]
    orbitRadius := 50
    angle := 0
    largeCircleCenter := ⟨3200 + 3 / 10, 2400⟩
    collisionOccurred := false
    score := 0
    lastFireTime := 600000 }

/-- The bullet `fireBullet` creates for the turret of `afterIdleTick` when the mouse is on
the turret's centre (3250, 2400): velocity zero. -/
def inertBullet : Bullet ℝ :=
  { shape := ⟨5, ⟨3245, 2395⟩⟩, direction := ⟨0, 0⟩, distanceTravelled := 0 }

/-- The state of a run that holds the inert bullet, with score `n`. -/
def killState (n : Int) : GameState ℝ :=
  { afterIdleTick with bullets := [inertBullet], score := n, lastFireTime := 600000 }

/-- The state `killState 50` after the score handling has copied the turret. -/
def upgradedState : GameState ℝ :=
  { killState 50 with smallCircles := [⟨10, ⟨3240, 2390⟩⟩, ⟨10, ⟨3240, 2390⟩⟩] }

/-- An input of a pass with nothing held, the mouse on the turret's centre, and a circle
drawn at (3245, 2395), on the inert bullet. -/
def killInput : Input ℝ :=
  { keyA := false, keyW := false, keyD := false, keyS := false, mouseLeft := false
    currentTime := 700000
    mouseAtFire := ⟨3250, 2400⟩
    mouseAtAim := ⟨3250, 2400⟩
    randVariant := 70
    randDraws := [(3245, 2395)] }

/-- The input `killInput` with the mouse button held at clock reading 600 ms. -/
def fireKillInput : Input ℝ :=
  { killInput with mouseLeft := true, currentTime := 600000 }

section Proofs

set_option linter.unusedSectionVars false

variable {F : Type} [LinearOrderedField F]

theorem checkCollision_eq_false_iff (newShape : Shape F) (shapes : List (Shape F)) :
    checkCollision newShape shapes = false ↔
      ∀ e ∈ shapes, newShape.getGlobalBounds.intersects e.getGlobalBounds = false := by
  induction shapes with
  | nil => simp [checkCollision]
  | cons e rest ih =>
    by_cases h : newShape.getGlobalBounds.intersects e.getGlobalBounds = true
    · simp [checkCollision, h]
    · simp [checkCollision, h, ih]

theorem placeShape_some (i : Nat) (largeCircle : CircleShape F) (shapes : List (Shape F))
    (draws : List (Nat × Nat)) (shapes' : List (Shape F))
    (h : placeShape i largeCircle shapes draws = some shapes') :
    ∃ s, shapes' = shapes ++ [s] ∧ checkCollision s shapes = false ∧
      checkShapeCollision s (.circle largeCircle) = false := by
  induction draws with
  | nil => simp [placeShape] at h
  | cons d rest ih =>
    obtain ⟨rx, ry⟩ := d
    simp only [placeShape] at h
    split at h
    · rename_i hc
      simp only [Option.some.injEq] at h
      refine ⟨_, h.symm, ?_⟩
      simpa using hc
    · exact ih h

/-- C1. Spawner top-up: when the placement loop ends, it has appended exactly one new
shape to the collection, and the box of that shape meets neither the box of a shape
already in the collection nor the box of the large circle (the player). -/
theorem placeShape_no_overlap (i : Nat) (largeCircle : CircleShape F)
    (shapes : List (Shape F)) (draws : List (Nat × Nat)) (shapes' : List (Shape F))
    (h : placeShape i largeCircle shapes draws = some shapes') :
    ∃ s, shapes' = shapes ++ [s] ∧
      (∀ e ∈ shapes, s.getGlobalBounds.intersects e.getGlobalBounds = false) ∧
      s.getGlobalBounds.intersects (Shape.circle largeCircle).getGlobalBounds = false := by
  obtain ⟨s, hs, hc, hp⟩ := placeShape_some i largeCircle shapes draws shapes' h
  exact ⟨s, hs, (checkCollision_eq_false_iff s shapes).mp hc, hp⟩

theorem placeShape_no_overlap_witness :
    ∃ s : Shape ℚ, [Shape.rectangle ⟨⟨30, 30⟩, ⟨100, 0⟩⟩, Shape.rectangle ⟨⟨30, 30⟩, ⟨200, 0⟩⟩]
        = [Shape.rectangle ⟨⟨30, 30⟩, ⟨100, 0⟩⟩] ++ [s] ∧
      (∀ e ∈ [Shape.rectangle ⟨⟨30, 30⟩, ⟨100, 0⟩⟩],
        s.getGlobalBounds.intersects e.getGlobalBounds = false) ∧
      s.getGlobalBounds.intersects
        (Shape.circle (⟨40, ⟨3160, 2360⟩⟩ : CircleShape ℚ)).getGlobalBounds = false :=
  placeShape_no_overlap 5 ⟨40, ⟨3160, 2360⟩⟩ [Shape.rectangle ⟨⟨30, 30⟩, ⟨100, 0⟩⟩]
    [(110, 10), (3170, 2370), (6550, 4750)] _ (by
      simp [placeShape, randomShapeGenerator, checkCollision, checkShapeCollision,
        Shape.getGlobalBounds, FloatRect.intersects, mapWidth, mapHeight]
      norm_num)

/-! ### The obstacle-vs-projectile sweep -/

theorem bulletAward_isSome (shape : Shape F) (bullets : List (Bullet F)) :
    (bulletAward shape bullets).isSome = hitByBullet bullets shape := by
  induction bullets with
  | nil => simp [bulletAward, hitByBullet]
  | cons b bs ih =>
    unfold hitByBullet at ih
    by_cases h : checkShapeCollision shape (.circle b.shape) = true
    · have h' := h
      unfold checkShapeCollision at h'
      cases shape <;> simp [bulletAward, hitByBullet, h, h']
    · have h' := h
      unfold checkShapeCollision at h'
      simp [bulletAward, hitByBullet, h, h', ih]

theorem bulletAward_value (shape : Shape F) (bullets : List (Bullet F)) :
    (bulletAward shape bullets).getD 0 =
      if hitByBullet bullets shape then (if shape.isRectangle then 1 else 2) else 0 := by
  induction bullets with
  | nil => simp [bulletAward, hitByBullet]
  | cons b bs ih =>
    unfold hitByBullet at ih
    by_cases h : checkShapeCollision shape (.circle b.shape) = true
    · have h' := h
      unfold checkShapeCollision at h'
      cases shape <;> simp [bulletAward, hitByBullet, h, h', Shape.isRectangle]
    · have h' := h
      unfold checkShapeCollision at h'
      simp only [bulletAward, h, hitByBullet, List.any_cons, h', Bool.false_or]
      simpa using ih

theorem sweepShapes_eq (bullets : List (Bullet F)) :
    ∀ (n : Nat) (shapes : List (Shape F)) (it : Nat) (score : Int),
      shapes.length - it = n → it ≤ shapes.length →
      sweepShapes bullets shapes it score =
        (shapes.take it ++ (shapes.drop it).filter (fun shape => !hitByBullet bullets shape),
          score + awardSum bullets (shapes.drop it)) := by
  intro n
  induction n with
  | zero =>
    intro shapes it score hn hle
    have hit : it = shapes.length := by omega
    subst hit
    rw [sweepShapes]
    simp [awardSum]
  | succ n ih =>
    intro shapes it score hn hle
    have hlt : it < shapes.length := by omega
    rw [sweepShapes]
    simp only [hlt, dif_pos, List.get_eq_getElem]
    have hdrop : shapes.drop it = shapes[it] :: shapes.drop (it + 1) :=
      List.drop_eq_getElem_cons hlt
    have herase : shapes.eraseIdx it = shapes.take it ++ shapes.drop (it + 1) :=
      List.eraseIdx_eq_take_drop_succ shapes it
    have hlen : (shapes.take it).length = it := by
      rw [List.length_take]; omega
    cases haw : bulletAward shapes[it] bullets with
    | some points =>
      have hhit : hitByBullet bullets shapes[it] = true := by
        rw [← bulletAward_isSome, haw]; rfl
      have hlen' : (shapes.eraseIdx it).length - it = n := by
        rw [List.length_eraseIdx]; simp only [hlt, if_true]; omega
      have hle' : it ≤ (shapes.eraseIdx it).length := by
        rw [List.length_eraseIdx]; simp only [hlt, if_true]; omega
      simp only []
      rw [ih (shapes.eraseIdx it) it (score + points) hlen' hle']
      have htake : (shapes.eraseIdx it).take it = shapes.take it := by
        rw [herase, List.take_append_eq_append_take, hlen]; simp
      have hdrop' : (shapes.eraseIdx it).drop it = shapes.drop (it + 1) := by
        rw [herase, List.drop_append_eq_append_drop, hlen]; simp
      rw [htake, hdrop', hdrop]
      simp only [List.filter_cons, hhit, Bool.not_true, awardSum, List.map_cons, List.sum_cons,
        haw, Option.getD_some]
      simp [add_assoc]
    | none =>
      have hhit : hitByBullet bullets shapes[it] = false := by
        rw [← bulletAward_isSome, haw]; rfl
      simp only []
      rw [ih shapes (it + 1) score (by omega) (by omega)]
      have htake : shapes.take (it + 1) = shapes.take it ++ [shapes[it]] := by
        rw [List.take_succ, List.getElem?_eq_getElem hlt]; rfl
      rw [htake, hdrop]
      simp only [List.filter_cons, hhit, Bool.not_false, awardSum, List.map_cons, List.sum_cons,
        haw, Option.getD_none, List.append_assoc, List.singleton_append, zero_add, if_true]

theorem awardSum_eq_count (bullets : List (Bullet F)) (shapes : List (Shape F)) :
    awardSum bullets shapes =
      ((shapes.countP (fun shape => hitByBullet bullets shape && shape.isRectangle) : Nat) : Int)
      + 2 * ((shapes.countP (fun shape => hitByBullet bullets shape && shape.isCircle) : Nat) : Int)
    := by
  induction shapes with
  | nil => simp [awardSum]
  | cons a rest ih =>
    unfold awardSum at ih ⊢
    rw [List.map_cons, List.sum_cons, ih, bulletAward_value]
    by_cases hh : hitByBullet bullets a = true
    · cases a <;> simp [hh, Shape.isRectangle, Shape.isCircle, List.countP_cons] <;> ring
    · simp [hh, List.countP_cons]

theorem sweepShapes_zero (bullets : List (Bullet F)) (shapes : List (Shape F)) (score : Int) :
    sweepShapes bullets shapes 0 score =
      (shapes.filter (fun shape => !hitByBullet bullets shape),
        score + awardSum bullets shapes) := by
  rw [sweepShapes_eq bullets shapes.length shapes 0 score (by omega) (by omega)]
  simp

theorem bulletSweep_shapesToDraw (s : GameState F) :
    (bulletSweep s).shapesToDraw
      = s.shapesToDraw.filter (fun shape => !hitByBullet s.bullets shape) := by
  simp [bulletSweep, sweepShapes_zero]

theorem bulletSweep_score (s : GameState F) :
    (bulletSweep s).score = s.score + awardSum s.bullets s.shapesToDraw := by
  simp [bulletSweep, sweepShapes_zero]

theorem bulletSweep_fields (s : GameState F) :
    (bulletSweep s).bullets = s.bullets ∧ (bulletSweep s).smallCircles = s.smallCircles ∧
      (bulletSweep s).lastFireTime = s.lastFireTime :=
  ⟨rfl, rfl, rfl⟩

/-- C3. The obstacle-vs-projectile sweep keeps, once each and in their order, exactly
the shapes whose box meets the box of no bullet, leaves the bullets as they are, and
adds to the score 1 for each removed rectangle and 2 for each removed circle, so the
score does not decrease. -/
theorem bulletSweep_spec (s : GameState F) :
    (bulletSweep s).shapesToDraw
        = s.shapesToDraw.filter (fun shape => !hitByBullet s.bullets shape) ∧
      (bulletSweep s).bullets = s.bullets ∧
      (bulletSweep s).score = s.score
        + ((s.shapesToDraw.countP
            (fun shape => hitByBullet s.bullets shape && shape.isRectangle) : Nat) : Int)
        + 2 * ((s.shapesToDraw.countP
            (fun shape => hitByBullet s.bullets shape && shape.isCircle) : Nat) : Int) ∧
      s.score ≤ (bulletSweep s).score := by
  have hc := awardSum_eq_count s.bullets s.shapesToDraw
  refine ⟨bulletSweep_shapesToDraw s, rfl, ?_, ?_⟩
  · rw [bulletSweep_score, hc]; ring
  · rw [bulletSweep_score, hc]; omega

/-! ### One pass of the loop, phase by phase -/

theorem tick_some (m : CMath F) (inp : Input F) (s s' : GameState F)
    (h : tick m inp s = some s') :
    ∃ s4, spawnPhase inp (aimSmallCircles m inp (fireCheck m inp (movePlayer inp s))) = some s4 ∧
      s' = upgradeSmallCircles (bulletPhase m (bulletSweep (playerSweep s4))) := by
  unfold tick at h
  simp only [] at h
  split at h
  · exact absurd h (by simp)
  · rename_i s4 hsp
    exact ⟨s4, hsp, (Option.some.inj h).symm⟩

theorem spawnPhase_some (inp : Input F) (s s4 : GameState F) (h : spawnPhase inp s = some s4) :
    spawnShape inp.randVariant inp.randDraws s.largeCircle s.shapesToDraw
        = some s4.shapesToDraw ∧
      s4.bullets = s.bullets ∧ s4.smallCircles = s.smallCircles ∧ s4.score = s.score ∧
      s4.lastFireTime = s.lastFireTime ∧ s4.largeCircle = s.largeCircle ∧
      s4.largeCircleCenter = s.largeCircleCenter ∧ s4.orbitRadius = s.orbitRadius := by
  unfold spawnPhase at h
  split at h
  · exact absurd h (by simp)
  · rename_i shapes hsp
    cases Option.some.inj h
    exact ⟨hsp, rfl, rfl, rfl, rfl, rfl, rfl, rfl⟩

theorem movePlayer_fields (inp : Input F) (s : GameState F) :
    (movePlayer inp s).shapesToDraw = s.shapesToDraw ∧
      (movePlayer inp s).bullets = s.bullets ∧
      (movePlayer inp s).smallCircles = s.smallCircles ∧
      (movePlayer inp s).score = s.score ∧
      (movePlayer inp s).lastFireTime = s.lastFireTime ∧
      (movePlayer inp s).orbitRadius = s.orbitRadius :=
  ⟨rfl, rfl, rfl, rfl, rfl, rfl⟩

theorem fireCheck_fields (m : CMath F) (inp : Input F) (s : GameState F) :
    (fireCheck m inp s).shapesToDraw = s.shapesToDraw ∧
      (fireCheck m inp s).smallCircles = s.smallCircles ∧
      (fireCheck m inp s).score = s.score ∧
      (fireCheck m inp s).largeCircle = s.largeCircle ∧
      (fireCheck m inp s).largeCircleCenter = s.largeCircleCenter ∧
      (fireCheck m inp s).orbitRadius = s.orbitRadius := by
  unfold fireCheck
  split <;> [split; skip] <;> exact ⟨rfl, rfl, rfl, rfl, rfl, rfl⟩

theorem aimSmallCircles_fields (m : CMath F) (inp : Input F) (s : GameState F) :
    (aimSmallCircles m inp s).shapesToDraw = s.shapesToDraw ∧
      (aimSmallCircles m inp s).bullets = s.bullets ∧
      (aimSmallCircles m inp s).score = s.score ∧
      (aimSmallCircles m inp s).lastFireTime = s.lastFireTime ∧
      (aimSmallCircles m inp s).largeCircle = s.largeCircle ∧
      (aimSmallCircles m inp s).largeCircleCenter = s.largeCircleCenter ∧
      (aimSmallCircles m inp s).orbitRadius = s.orbitRadius :=
  ⟨rfl, rfl, rfl, rfl, rfl, rfl, rfl⟩

theorem spawnShape_length (randVariant : Nat) (draws : List (Nat × Nat))
    (largeCircle : CircleShape F) (shapes shapes' : List (Shape F))
    (h : spawnShape randVariant draws largeCircle shapes = some shapes') :
    shapes'.length ≤ shapes.length + 1 ∧ (shapes.length ≤ 100 → shapes'.length ≤ 100) := by
  unfold spawnShape at h
  split at h
  · obtain ⟨x, hx, -⟩ := placeShape_some _ _ _ _ _ h
    subst hx
    simp only [List.length_append, List.length_singleton]
    omega
  · cases Option.some.inj h
    omega

theorem playerSweep_shapesToDraw (s : GameState F) :
    (playerSweep s).shapesToDraw = s.shapesToDraw := by
  unfold playerSweep; split <;> rfl

theorem playerSweep_bullets (s : GameState F) : (playerSweep s).bullets = s.bullets := by
  unfold playerSweep; split <;> rfl

theorem playerSweep_score (s : GameState F) : (playerSweep s).score = s.score := by
  unfold playerSweep; split <;> rfl

theorem playerSweep_smallCircles (s : GameState F) :
    (playerSweep s).smallCircles = s.smallCircles := by
  unfold playerSweep; split <;> rfl

theorem playerSweep_lastFireTime (s : GameState F) :
    (playerSweep s).lastFireTime = s.lastFireTime := by
  unfold playerSweep; split <;> rfl

theorem upgradeSmallCircles_shapesToDraw (s : GameState F) :
    (upgradeSmallCircles s).shapesToDraw = s.shapesToDraw := by
  unfold upgradeSmallCircles; split <;> [split; skip] <;> rfl

theorem upgradeSmallCircles_score (s : GameState F) :
    (upgradeSmallCircles s).score = s.score := by
  unfold upgradeSmallCircles; split <;> [split; skip] <;> rfl

theorem upgradeSmallCircles_bullets (s : GameState F) :
    (upgradeSmallCircles s).bullets = s.bullets := by
  unfold upgradeSmallCircles; split <;> [split; skip] <;> rfl

theorem upgradeSmallCircles_lastFireTime (s : GameState F) :
    (upgradeSmallCircles s).lastFireTime = s.lastFireTime := by
  unfold upgradeSmallCircles; split <;> [split; skip] <;> rfl

theorem tick_shapes_length (m : CMath F) (inp : Input F) (s s' : GameState F)
    (h : tick m inp s = some s') :
    s'.shapesToDraw.length ≤ s.shapesToDraw.length + 1 ∧
      (s.shapesToDraw.length ≤ 100 → s'.shapesToDraw.length ≤ 100) := by
  obtain ⟨s4, hsp, rfl⟩ := tick_some m inp s s' h
  have hsp' := (spawnPhase_some inp _ s4 hsp).1
  rw [(aimSmallCircles_fields m inp _).1, (fireCheck_fields m inp _).1,
    (movePlayer_fields inp s).1] at hsp'
  have hl := spawnShape_length _ _ _ _ _ hsp'
  have hf : (upgradeSmallCircles (bulletPhase m (bulletSweep (playerSweep s4)))).shapesToDraw.length
      ≤ s4.shapesToDraw.length := by
    rw [upgradeSmallCircles_shapesToDraw]
    show (bulletSweep (playerSweep s4)).shapesToDraw.length ≤ _
    rw [bulletSweep_shapesToDraw, playerSweep_shapesToDraw]
    exact List.length_filter_le _ _
  constructor
  · omega
  · intro h100; have := hl.2 h100; omega

theorem runTicks_invariant (m : CMath F) (P : GameState F → Prop)
    (hstep : ∀ (inp : Input F) (s s' : GameState F), P s → tick m inp s = some s' → P s') :
    ∀ (inps : List (Input F)) (s s' : GameState F),
      P s → runTicks m inps s = some s' → P s' := by
  intro inps
  induction inps with
  | nil =>
    intro s s' hP h
    cases Option.some.inj h
    exact hP
  | cons inp rest ih =>
    intro s s' hP h
    unfold runTicks at h
    split at h
    · exact absurd h (by simp)
    · rename_i s1 h1
      exact ih s1 s' (hstep inp s s1 hP h1) h

theorem reachable_shapes_length (m : CMath F) (s : GameState F) (h : Reachable m s) :
    s.shapesToDraw.length ≤ 100 := by
  obtain ⟨inps, hr⟩ := h
  refine runTicks_invariant m (fun s => s.shapesToDraw.length ≤ 100) ?_ inps initialState s ?_ hr
  · intro inp s s' hP ht
    exact (tick_shapes_length m inp s s' ht).2 hP
  · simp [initialState]

/-- C2. From every state the loop reaches from its initial state (empty obstacle
collection), a pass of the loop ends with at most 100 obstacles and with at most one
obstacle more than it started with. -/
theorem tick_obstacle_count (m : CMath F) (inp : Input F) (s s' : GameState F)
    (hr : Reachable m s) (ht : tick m inp s = some s') :
    s'.shapesToDraw.length ≤ 100 ∧ s'.shapesToDraw.length ≤ s.shapesToDraw.length + 1 :=
  ⟨(tick_shapes_length m inp s s' ht).2 (reachable_shapes_length m s hr),
    (tick_shapes_length m inp s s' ht).1⟩

/-! ### The small circles (turrets) -/

theorem placeSmallCircles_length (m : CMath F) (center : Vector2f F) (orbitRadius angle : F)
    (cs : List (CircleShape F)) :
    ∀ i, (placeSmallCircles m center orbitRadius angle i cs).length = cs.length := by
  induction cs with
  | nil => intro i; rfl
  | cons c rest ih => intro i; simp [placeSmallCircles, ih]

theorem upgradeSmallCircles_length (s : GameState F) :
    (upgradeSmallCircles s).smallCircles.length =
      if 50 ≤ s.score ∧ s.smallCircles.length = 1 then 2 else s.smallCircles.length := by
  unfold upgradeSmallCircles
  by_cases h : s.score ≥ 50 ∧ s.smallCircles.length = 1
  · rw [if_pos h, if_pos h]
    split
    · simp [h.2]
    · rename_i hnil
      rw [hnil] at h
      simp at h
  · rw [if_neg h, if_neg h]

theorem tick_fields (m : CMath F) (inp : Input F) (s s' : GameState F)
    (h : tick m inp s = some s') :
    s'.lastFireTime = (fireCheck m inp (movePlayer inp s)).lastFireTime ∧
      s'.bullets = updateBullets m (fireCheck m inp (movePlayer inp s)).bullets ∧
      s'.smallCircles.length =
        (if 50 ≤ s'.score ∧ s.smallCircles.length = 1 then 2 else s.smallCircles.length) := by
  obtain ⟨s4, hsp, rfl⟩ := tick_some m inp s s' h
  obtain ⟨-, hb, hc, -, hl, -, -, -⟩ := spawnPhase_some inp _ s4 hsp
  refine ⟨?_, ?_, ?_⟩
  · rw [upgradeSmallCircles_lastFireTime]
    show (bulletSweep (playerSweep s4)).lastFireTime = _
    rw [(bulletSweep_fields _).2.2, playerSweep_lastFireTime, hl]
    rfl
  · rw [upgradeSmallCircles_bullets]
    show updateBullets m (bulletSweep (playerSweep s4)).bullets = _
    rw [(bulletSweep_fields _).1, playerSweep_bullets, hb]
    rfl
  · rw [upgradeSmallCircles_length, upgradeSmallCircles_score]
    have hlen : (bulletPhase m (bulletSweep (playerSweep s4))).smallCircles.length
        = s.smallCircles.length := by
      show (bulletSweep (playerSweep s4)).smallCircles.length = _
      rw [(bulletSweep_fields _).2.1, playerSweep_smallCircles, hc]
      show (placeSmallCircles m _ _ _ 0 (fireCheck m inp (movePlayer inp s)).smallCircles).length
        = _
      rw [placeSmallCircles_length, (fireCheck_fields m inp _).2.1]
      rfl
    rw [hlen]

theorem reachable_smallCircles_length (m : CMath F) (s : GameState F) (h : Reachable m s) :
    s.smallCircles.length = 1 ∨ s.smallCircles.length = 2 := by
  obtain ⟨inps, hr⟩ := h
  refine runTicks_invariant m
    (fun s => s.smallCircles.length = 1 ∨ s.smallCircles.length = 2) ?_ inps initialState s ?_ hr
  · intro inp s s' hP ht
    have hlen := (tick_fields m inp s s' ht).2.2
    show s'.smallCircles.length = 1 ∨ s'.smallCircles.length = 2
    split at hlen <;> omega
  · left; rfl

/-- C6. Turret upgrade: in every state the loop reaches, and at the end of every pass
from it, there are 1 or 2 small circles (turrets); a pass never lowers their number;
a pass that ends with a score of at least 50 ends with exactly 2; and once there are
2, every later pass ends with 2. -/
theorem smallCircles_upgrade (m : CMath F) (inp : Input F) (s s' : GameState F)
    (hr : Reachable m s) (ht : tick m inp s = some s') :
    (s.smallCircles.length = 1 ∨ s.smallCircles.length = 2) ∧
      (s'.smallCircles.length = 1 ∨ s'.smallCircles.length = 2) ∧
      s.smallCircles.length ≤ s'.smallCircles.length ∧
      (50 ≤ s'.score → s'.smallCircles.length = 2) ∧
      (s.smallCircles.length = 2 → s'.smallCircles.length = 2) := by
  have h0 := reachable_smallCircles_length m s hr
  have hlen := (tick_fields m inp s s' ht).2.2
  refine ⟨h0, ?_, ?_, ?_, ?_⟩
  · split at hlen <;> omega
  · split at hlen <;> omega
  · intro h50
    by_cases h1 : s.smallCircles.length = 1
    · rw [if_pos ⟨h50, h1⟩] at hlen; exact hlen
    · rw [if_neg (fun hh => h1 hh.2)] at hlen; omega
  · intro h2
    rw [if_neg (fun hh => by omega)] at hlen; omega

/-! ### The firing cooldown -/

theorem fireCheck_lastFireTime (m : CMath F) (inp : Input F) (s : GameState F) :
    ((fireCheck m inp s).lastFireTime ≠ s.lastFireTime ↔
        inp.mouseLeft = true ∧ inp.currentTime - s.lastFireTime > fireInterval) ∧
      ((inp.mouseLeft = true ∧ inp.currentTime - s.lastFireTime > fireInterval) →
        (fireCheck m inp s).lastFireTime = inp.currentTime ∧
        (fireCheck m inp s).bullets = fireBullet m s.bullets s.smallCircles inp.mouseAtFire) ∧
      (¬ (inp.mouseLeft = true ∧ inp.currentTime - s.lastFireTime > fireInterval) →
        (fireCheck m inp s).lastFireTime = s.lastFireTime ∧
        (fireCheck m inp s).bullets = s.bullets) := by
  unfold fireCheck
  by_cases hm : inp.mouseLeft = true
  · by_cases ht : inp.currentTime - s.lastFireTime > fireInterval
    · simp only [hm, ht, if_true, true_and, not_true_eq_false, false_implies, and_true,
        forall_const, iff_true]
      unfold fireInterval at ht
      intro h
      omega
    · simp [hm, ht]
  · simp [hm]

theorem shotTimes_apart (m : CMath F) :
    ∀ (inps : List (Input F)) (s : GameState F),
      (shotTimes m inps s).Pairwise (fun a b => b - a > fireInterval) ∧
      ∀ t ∈ shotTimes m inps s, t - s.lastFireTime > fireInterval := by
  intro inps
  induction inps with
  | nil => intro s; simp [shotTimes]
  | cons inp rest ih =>
    intro s
    unfold shotTimes
    split
    · simp
    · rename_i s' ht
      have hf := tick_fields m inp s s' ht
      have hc := fireCheck_lastFireTime m inp (movePlayer inp s)
      rw [← hf.1] at hc
      have hs : (movePlayer inp s).lastFireTime = s.lastFireTime := rfl
      rw [hs] at hc
      obtain ⟨hp, ha⟩ := ih s'
      by_cases hch : s'.lastFireTime ≠ s.lastFireTime
      · rw [if_pos hch]
        have hgt := (hc.1.mp hch).2
        have hcur : s'.lastFireTime = inp.currentTime := (hc.2.1 (hc.1.mp hch)).1
        rw [← hcur] at hgt
        clear hc hf
        unfold fireInterval at hgt ha ⊢
        refine ⟨List.pairwise_cons.mpr ⟨ha, hp⟩, ?_⟩
        intro t htm
        rcases List.mem_cons.mp htm with h | h
        · rw [h]; exact hgt
        · have := ha t h; omega
      · rw [if_neg hch]
        have heq : s'.lastFireTime = s.lastFireTime := not_not.mp hch
        rw [heq] at ha
        exact ⟨hp, ha⟩

/-- C9. Firing cooldown. A pass of the loop fires (it changes `lastFireTime`) exactly
when the mouse button is held and more than 500 ms separate the clock reading from the
last fire time (zero, the start of the clock, before the first shot); a pass that fires
sets the last fire time to the clock reading and calls `fireBullet`; any other pass
adds no bullet and leaves the last fire time as it is. Hence in every run the shots
are more than 500 ms apart from each other and from the last fire time the run starts
with. -/
theorem fire_cooldown (m : CMath F) (inps : List (Input F)) (s : GameState F) :
    (∀ (inp : Input F) (s' : GameState F), tick m inp s = some s' →
      ((s'.lastFireTime ≠ s.lastFireTime ↔
          inp.mouseLeft = true ∧ inp.currentTime - s.lastFireTime > fireInterval) ∧
        ((inp.mouseLeft = true ∧ inp.currentTime - s.lastFireTime > fireInterval) →
          s'.lastFireTime = inp.currentTime ∧
          s'.bullets = updateBullets m
            (fireBullet m s.bullets s.smallCircles inp.mouseAtFire)) ∧
        (¬ (inp.mouseLeft = true ∧ inp.currentTime - s.lastFireTime > fireInterval) →
          s'.lastFireTime = s.lastFireTime ∧ s'.bullets = updateBullets m s.bullets))) ∧
      (shotTimes m inps s).Pairwise (fun a b => b - a > fireInterval) ∧
      (∀ t ∈ shotTimes m inps s, t - s.lastFireTime > fireInterval) := by
  refine ⟨?_, (shotTimes_apart m inps s).1, (shotTimes_apart m inps s).2⟩
  intro inp s' ht
  have hf := tick_fields m inp s s' ht
  have hc := fireCheck_lastFireTime m inp (movePlayer inp s)
  have hs : (movePlayer inp s).lastFireTime = s.lastFireTime := rfl
  have hb : (movePlayer inp s).bullets = s.bullets := rfl
  have hsc : (movePlayer inp s).smallCircles = s.smallCircles := rfl
  rw [hs, hb, hsc, ← hf.1] at hc
  refine ⟨hc.1, ?_, ?_⟩
  · intro h
    exact ⟨(hc.2.1 h).1, by rw [hf.2.1, (hc.2.1 h).2]⟩
  · intro h
    exact ⟨(hc.2.2 h).1, by rw [hf.2.1, (hc.2.2 h).2]⟩

/-! ### A first pass with no key and no button held -/

theorem Vector2f.add_def (a b : Vector2f F) :
    a + b = ⟨a.x + b.x, a.y + b.y⟩ := rfl

theorem Vector2f.sub_def (a b : Vector2f F) :
    a - b = ⟨a.x - b.x, a.y - b.y⟩ := rfl

theorem initialState_eq : (initialState : GameState ℝ) =
    { afterIdleTick with shapesToDraw := [], smallCircles := [⟨10, ⟨0, 0⟩⟩] } := by
  simp only [initialState, afterIdleTick, CircleShape.setPosition, mapWidth, mapHeight]
  norm_num

theorem idle_move : movePlayer idleInput initialState = initialState := by
  rw [initialState_eq]
  simp only [movePlayer, idleInput, afterIdleTick, Vector2f.add_def]
  norm_num

theorem idle_fire : fireCheck realMath idleInput initialState = initialState := by
  simp [fireCheck, idleInput]

theorem idle_aim : aimSmallCircles realMath idleInput initialState =
    { afterIdleTick with shapesToDraw := [] } := by
  have harg : Complex.arg ⟨100, 0⟩ = 0 := Complex.arg_ofReal_of_nonneg (by norm_num : (0:ℝ) ≤ 100)
  rw [initialState_eq]
  simp only [aimSmallCircles, idleInput, afterIdleTick, placeSmallCircles, Vector2f.sub_def,
    CircleShape.setPosition, realMath]
  norm_num [harg]

theorem idle_spawn : spawnPhase idleInput { afterIdleTick with shapesToDraw := [] }
    = some afterIdleTick := by
  simp [spawnPhase, idleInput, afterIdleTick, spawnShape, placeShape, randomShapeGenerator,
    checkCollision, checkShapeCollision, Shape.getGlobalBounds, FloatRect.intersects, mapWidth,
    mapHeight]
  norm_num

theorem idle_rest : upgradeSmallCircles (bulletPhase realMath (bulletSweep (playerSweep afterIdleTick)))
    = afterIdleTick := by
  have h1 : playerSweep afterIdleTick = afterIdleTick := by
    simp [playerSweep, afterIdleTick, playerCollides, checkShapeCollision, Shape.getGlobalBounds,
      FloatRect.intersects]
    norm_num
  have h2 : bulletSweep afterIdleTick = afterIdleTick := by
    simp [bulletSweep, sweepShapes_zero, afterIdleTick, hitByBullet, awardSum, bulletAward]
  have h3 : bulletPhase realMath afterIdleTick = afterIdleTick := by
    simp [bulletPhase, afterIdleTick, updateBullets]
  have h4 : upgradeSmallCircles afterIdleTick = afterIdleTick := by
    simp [upgradeSmallCircles, afterIdleTick]
  rw [h1, h2, h3, h4]

theorem idle_tick_eq : tick realMath idleInput initialState = some afterIdleTick := by
  unfold tick
  simp only [idle_move, idle_fire, idle_aim, idle_spawn, idle_rest]

theorem reachable_afterIdleTick : Reachable realMath afterIdleTick :=
  ⟨[idleInput], by simp [runTicks, idle_tick_eq]⟩

theorem tick_obstacle_count_witness :
    tick realMath idleInput initialState = some afterIdleTick ∧
      afterIdleTick.shapesToDraw.length ≤ 100 ∧
      afterIdleTick.shapesToDraw.length ≤ (initialState : GameState ℝ).shapesToDraw.length + 1 :=
  ⟨idle_tick_eq,
    tick_obstacle_count realMath idleInput initialState afterIdleTick ⟨[], rfl⟩ idle_tick_eq⟩

/-! ### `normalize` and `fireBullet` -/

theorem realMath_sqrt (x : ℝ) : realMath.sqrt x = Real.sqrt x := rfl

theorem sqrt_sq_add_ne_zero (x y : ℝ) (h : Real.sqrt (x * x + y * y) ≠ 0) :
    0 < Real.sqrt (x * x + y * y) ∧
      Real.sqrt (x * x + y * y) * Real.sqrt (x * x + y * y) = x * x + y * y := by
  have hnn : 0 ≤ x * x + y * y := add_nonneg (mul_self_nonneg x) (mul_self_nonneg y)
  exact ⟨lt_of_le_of_ne (Real.sqrt_nonneg _) (Ne.symm h), Real.mul_self_sqrt hnn⟩

theorem normalize_zero : normalize realMath (⟨0, 0⟩ : Vector2f ℝ) = ⟨0, 0⟩ := by
  simp [normalize, realMath_sqrt]

theorem normalize_length (v : Vector2f ℝ) (hv : Real.sqrt (v.x * v.x + v.y * v.y) ≠ 0) :
    Real.sqrt ((normalize realMath v).x * (normalize realMath v).x
      + (normalize realMath v).y * (normalize realMath v).y) = 1 := by
  obtain ⟨hpos, hsq⟩ := sqrt_sq_add_ne_zero v.x v.y hv
  have hn : normalize realMath v = v.div (Real.sqrt (v.x * v.x + v.y * v.y)) := by
    simp [normalize, realMath_sqrt, hv]
  rw [hn]
  simp only [Vector2f.div]
  have : v.x / Real.sqrt (v.x * v.x + v.y * v.y) * (v.x / Real.sqrt (v.x * v.x + v.y * v.y))
      + v.y / Real.sqrt (v.x * v.x + v.y * v.y) * (v.y / Real.sqrt (v.x * v.x + v.y * v.y))
      = 1 := by
    field_simp
    linarith
  rw [this, Real.sqrt_one]

/-- C7. Over the real numbers, `normalize` maps the zero vector to the zero vector, and
a vector `v` of non-zero length to `v / |v|`, which has length 1 and is `v` times a
positive number. -/
theorem normalize_spec :
    normalize realMath (⟨0, 0⟩ : Vector2f ℝ) = ⟨0, 0⟩ ∧
      ∀ v : Vector2f ℝ, realMath.sqrt (v.x * v.x + v.y * v.y) ≠ 0 →
        normalize realMath v = v.div (realMath.sqrt (v.x * v.x + v.y * v.y)) ∧
        realMath.sqrt ((normalize realMath v).x * (normalize realMath v).x
          + (normalize realMath v).y * (normalize realMath v).y) = 1 ∧
        ∃ k : ℝ, 0 < k ∧ normalize realMath v = v.scale k := by
  refine ⟨normalize_zero, ?_⟩
  intro v hv
  rw [realMath_sqrt] at hv
  obtain ⟨hpos, -⟩ := sqrt_sq_add_ne_zero v.x v.y hv
  have hn : normalize realMath v = v.div (Real.sqrt (v.x * v.x + v.y * v.y)) := by
    simp [normalize, realMath_sqrt, hv]
  refine ⟨hn, normalize_length v hv, (Real.sqrt (v.x * v.x + v.y * v.y))⁻¹,
    inv_pos.mpr hpos, ?_⟩
  rw [hn]
  ext <;> simp [Vector2f.div, Vector2f.scale, div_eq_mul_inv]

theorem normalize_spec_witness :
    realMath.sqrt ((3 : ℝ) * 3 + 4 * 4) ≠ 0 ∧
      normalize realMath (⟨3, 4⟩ : Vector2f ℝ)
        = (⟨3, 4⟩ : Vector2f ℝ).div (realMath.sqrt ((3 : ℝ) * 3 + 4 * 4)) ∧
      realMath.sqrt ((normalize realMath (⟨3, 4⟩ : Vector2f ℝ)).x
          * (normalize realMath (⟨3, 4⟩ : Vector2f ℝ)).x
        + (normalize realMath (⟨3, 4⟩ : Vector2f ℝ)).y
          * (normalize realMath (⟨3, 4⟩ : Vector2f ℝ)).y) = 1 ∧
      ∃ k : ℝ, 0 < k ∧ normalize realMath (⟨3, 4⟩ : Vector2f ℝ)
        = (⟨3, 4⟩ : Vector2f ℝ).scale k :=
  have h : realMath.sqrt ((3 : ℝ) * 3 + 4 * 4) ≠ 0 := by
    rw [realMath_sqrt]
    exact Real.sqrt_ne_zero'.mpr (by norm_num)
  ⟨h, normalize_spec.2 ⟨3, 4⟩ h⟩

theorem fireBullet_eq (m : CMath F) (smallCircles : List (CircleShape F))
    (mousePosition : Vector2f F) :
    ∀ bullets : List (Bullet F), fireBullet m bullets smallCircles mousePosition =
      bullets ++ smallCircles.map (fun t => newBullet m t mousePosition) := by
  induction smallCircles with
  | nil => intro bullets; simp [fireBullet]
  | cons t rest ih =>
    intro bullets
    unfold fireBullet at ih ⊢
    rw [List.foldl_cons, ih]
    simp

theorem newBullet_center (m : CMath F) (t : CircleShape F) (mousePosition : Vector2f F) :
    (newBullet m t mousePosition).shape.position
        + ⟨(newBullet m t mousePosition).shape.radius, (newBullet m t mousePosition).shape.radius⟩
      = t.position + ⟨t.radius, t.radius⟩ := by
  show (⟨_, _⟩ : Vector2f F) = ⟨_, _⟩
  simp only [newBullet, CircleShape.setPosition]
  show (⟨t.position.x + t.radius - 5 + 5, t.position.y + t.radius - 5 + 5⟩ : Vector2f F) = _
  simp

/-- C8. The function `fireBullet` keeps the bullets it is given and appends one bullet
for each small circle (turret), in their order; each new bullet has travelled
distance 0, its centre (position plus radius on both axes) is the turret's centre
(position plus radius on both axes), and its velocity is `normalize` of the mouse
position minus the turret's centre, times `bulletSpeed`, which is `4 * playerSpeed`. -/
theorem fireBullet_spec (m : CMath F) (bullets : List (Bullet F))
    (smallCircles : List (CircleShape F)) (mousePosition : Vector2f F) :
    fireBullet m bullets smallCircles mousePosition =
        bullets ++ smallCircles.map (fun t => newBullet m t mousePosition) ∧
      (∀ t : CircleShape F,
        (newBullet m t mousePosition).distanceTravelled = 0 ∧
        (newBullet m t mousePosition).shape.position
            + ⟨(newBullet m t mousePosition).shape.radius,
                (newBullet m t mousePosition).shape.radius⟩
          = t.position + ⟨t.radius, t.radius⟩ ∧
        (newBullet m t mousePosition).direction
          = (normalize m (mousePosition - (t.position + ⟨t.radius, t.radius⟩))).scale
              bulletSpeed) ∧
      (bulletSpeed : F) = 4 * playerSpeed :=
  ⟨fireBullet_eq m smallCircles mousePosition bullets,
    fun t => ⟨rfl, newBullet_center m t mousePosition, rfl⟩, rfl⟩

/-! ### `updateBullets` -/

theorem updateBullets_eq_filterMap (m : CMath F) (bullets : List (Bullet F)) :
    updateBullets m bullets = bullets.filterMap
      (fun b => if (b.advance m).expired then none else some (b.advance m)) := by
  induction bullets with
  | nil => rfl
  | cons b rest ih =>
    unfold updateBullets at ih ⊢
    rw [List.map_cons, List.filter_cons, List.filterMap_cons, ih]
    by_cases h : (b.advance m).expired = true
    · simp [h]
    · simp [h]

theorem Bullet.after_zero (m : CMath F) (b : Bullet F) : b.after m 0 = b := by
  simp [Bullet.after]

theorem Bullet.advance_after (m : CMath F) (n : Nat) (b : Bullet F) :
    (b.after m n).advance m = b.after m (n + 1) := by
  simp only [Bullet.advance, Bullet.after, CircleShape.move]
  ext
  · rfl
  · show b.shape.position.x + (n : F) * b.direction.x + b.direction.x = _
    push_cast; ring
  · show b.shape.position.y + (n : F) * b.direction.y + b.direction.y = _
    push_cast; ring
  · rfl
  · rfl
  · show b.distanceTravelled + (n : F) * _ + _ = _
    push_cast; ring

theorem Bullet.survives_succ (m : CMath F) (n : Nat) (b : Bullet F) :
    b.survives m (n + 1) = (b.survives m n && !(b.after m (n + 1)).expired) := by
  simp [Bullet.survives, List.range_succ, List.all_append]

theorem iterate_updateBullets (m : CMath F) (n : Nat) (bullets : List (Bullet F)) :
    (updateBullets m)^[n] bullets =
      bullets.filterMap (fun b => if b.survives m n then some (b.after m n) else none) := by
  induction n with
  | zero => simp [Bullet.survives, Bullet.after_zero]
  | succ n ih =>
    rw [Function.iterate_succ_apply', ih, updateBullets_eq_filterMap, List.filterMap_filterMap]
    congr 1
    funext b
    rw [Bullet.survives_succ]
    by_cases hs : b.survives m n = true
    · by_cases he : (b.after m (n + 1)).expired = true
      · simp [hs, he, Bullet.advance_after]
      · simp [hs, he, Bullet.advance_after]
    · simp [hs]

theorem Bullet.expired_iff (b : Bullet F) :
    b.expired = true ↔
      (b.shape.position.x < 0 ∨ b.shape.position.x > 6400 ∨ b.shape.position.y < 0 ∨
        b.shape.position.y > 4800 ∨ b.distanceTravelled > 1280) := by
  simp only [Bullet.expired, maxBulletDistance, mapWidth, mapHeight, viewWidth, Bool.or_eq_true,
    decide_eq_true_eq, Nat.cast_ofNat, or_assoc]
  norm_num

/-- C4. After `n` calls of `updateBullets` the collection holds, in order, exactly the
bullets that none of the calls 1..n found expired, each at position
`start + n * s` with cumulative distance raised by `n * |s|` (`s` its velocity); a
bullet is expired when its position has `x < 0`, `x > 6400`, `y < 0` or `y > 4800` or
its cumulative distance exceeds 1280. So a bullet is removed by the first call after
which it is expired and survives every earlier call. -/
theorem updateBullets_iterate (m : CMath F) (n : Nat) (bullets : List (Bullet F)) :
    (updateBullets m)^[n] bullets =
        bullets.filterMap (fun b =>
          if (List.range n).all (fun k => !(b.after m (k + 1)).expired)
          then some (b.after m n) else none) ∧
      (∀ (b : Bullet F) (k : Nat),
        (b.after m k).shape.position
          = ⟨b.shape.position.x + (k : F) * b.direction.x,
              b.shape.position.y + (k : F) * b.direction.y⟩ ∧
        (b.after m k).distanceTravelled = b.distanceTravelled + (k : F) *
          m.sqrt (b.direction.x * b.direction.x + b.direction.y * b.direction.y) ∧
        (b.after m k).direction = b.direction ∧
        ((b.after m k).expired = true ↔
          ((b.after m k).shape.position.x < 0 ∨ (b.after m k).shape.position.x > 6400 ∨
            (b.after m k).shape.position.y < 0 ∨ (b.after m k).shape.position.y > 4800 ∨
            (b.after m k).distanceTravelled > 1280))) :=
  ⟨iterate_updateBullets m n bullets,
    fun b k => ⟨rfl, rfl, rfl, Bullet.expired_iff (b.after m k)⟩⟩

/-! ### The lifetime of a fired bullet -/

theorem playerSweep_center (s : GameState F) :
    (playerSweep s).largeCircleCenter = s.largeCircleCenter ∧
      (playerSweep s).orbitRadius = s.orbitRadius := by
  unfold playerSweep; split <;> exact ⟨rfl, rfl⟩

theorem upgradeSmallCircles_center (s : GameState F) :
    (upgradeSmallCircles s).largeCircleCenter = s.largeCircleCenter ∧
      (upgradeSmallCircles s).orbitRadius = s.orbitRadius := by
  unfold upgradeSmallCircles; split <;> [split; skip] <;> exact ⟨rfl, rfl⟩

theorem upgradeSmallCircles_mem (s : GameState F) (t : CircleShape F)
    (h : t ∈ (upgradeSmallCircles s).smallCircles) : t ∈ s.smallCircles := by
  unfold upgradeSmallCircles at h
  split at h
  · split at h
    · rename_i c rest hc
      rw [hc] at h ⊢
      simp only [List.mem_append, List.mem_singleton] at h
      rcases h with h | h
      · exact h
      · rw [h]; exact List.mem_cons_self _ _
    · exact h
  · exact h

theorem tick_center (m : CMath F) (inp : Input F) (s s' : GameState F)
    (h : tick m inp s = some s') :
    s'.largeCircleCenter = (movePlayer inp s).largeCircleCenter ∧
      s'.orbitRadius = s.orbitRadius ∧
      ∀ t ∈ s'.smallCircles,
        t ∈ (aimSmallCircles m inp (fireCheck m inp (movePlayer inp s))).smallCircles := by
  obtain ⟨s4, hsp, rfl⟩ := tick_some m inp s s' h
  obtain ⟨-, -, hc, -, -, -, hcen, horb⟩ := spawnPhase_some inp _ s4 hsp
  refine ⟨?_, ?_, ?_⟩
  · rw [(upgradeSmallCircles_center _).1]
    show (bulletSweep (playerSweep s4)).largeCircleCenter = _
    show (playerSweep s4).largeCircleCenter = _
    rw [(playerSweep_center s4).1, hcen, (aimSmallCircles_fields m inp _).2.2.2.2.2.1,
      (fireCheck_fields m inp _).2.2.2.2.1]
  · rw [(upgradeSmallCircles_center _).2]
    show (playerSweep s4).orbitRadius = _
    rw [(playerSweep_center s4).2, horb, (aimSmallCircles_fields m inp _).2.2.2.2.2.2,
      (fireCheck_fields m inp _).2.2.2.2.2]
    rfl
  · intro t ht
    have h1 := upgradeSmallCircles_mem _ t ht
    have h2 : t ∈ (playerSweep s4).smallCircles := h1
    rw [playerSweep_smallCircles, hc] at h2
    exact h2

theorem reachable_orbitRadius (m : CMath F) (s : GameState F) (h : Reachable m s) :
    s.orbitRadius = 50 := by
  obtain ⟨inps, hr⟩ := h
  refine runTicks_invariant m (fun s => s.orbitRadius = 50) ?_ inps initialState s ?_ hr
  · intro inp s s' hP ht
    show s'.orbitRadius = 50
    rw [(tick_center m inp s s' ht).2.1]
    exact hP
  · show ((40 : F) + 10 = 50)
    norm_num

theorem placeSmallCircles_getElem (m : CMath F) (center : Vector2f F) (orbitRadius angle : F) :
    ∀ (cs : List (CircleShape F)) (i0 i : Nat)
      (hi : i < (placeSmallCircles m center orbitRadius angle i0 cs).length),
      ((placeSmallCircles m center orbitRadius angle i0 cs)[i]).center =
        ⟨center.x + orbitRadius * m.cos (angle + ((i0 + i : Nat) : F) * m.pi / 4),
          center.y + orbitRadius * m.sin (angle + ((i0 + i : Nat) : F) * m.pi / 4)⟩ := by
  intro cs
  induction cs with
  | nil => intro i0 i hi; simp [placeSmallCircles] at hi
  | cons c rest ih =>
    intro i0 i hi
    cases i with
    | zero =>
      simp only [placeSmallCircles, List.getElem_cons_zero, CircleShape.center,
        CircleShape.setPosition, Nat.add_zero]
      show (⟨_ - c.radius + c.radius, _ - c.radius + c.radius⟩ : Vector2f F) = _
      simp
    | succ j =>
      simp only [placeSmallCircles, List.getElem_cons_succ]
      rw [ih (i0 + 1) j]
      have e : i0 + 1 + j = i0 + (j + 1) := by omega
      rw [e]

theorem aimSmallCircles_getElem (m : CMath F) (inp : Input F) (s : GameState F) (i : Nat)
    (hi : i < (aimSmallCircles m inp s).smallCircles.length) :
    ((aimSmallCircles m inp s).smallCircles[i]).center =
      ⟨s.largeCircleCenter.x + s.orbitRadius * m.cos
          (m.atan2 (inp.mouseAtAim - s.largeCircleCenter).y
            (inp.mouseAtAim - s.largeCircleCenter).x + (i : F) * m.pi / 4),
        s.largeCircleCenter.y + s.orbitRadius * m.sin
          (m.atan2 (inp.mouseAtAim - s.largeCircleCenter).y
            (inp.mouseAtAim - s.largeCircleCenter).x + (i : F) * m.pi / 4)⟩ := by
  have hp := placeSmallCircles_getElem m s.largeCircleCenter s.orbitRadius
    (m.atan2 (inp.mouseAtAim - s.largeCircleCenter).y (inp.mouseAtAim - s.largeCircleCenter).x)
    s.smallCircles 0 i hi
  rw [Nat.zero_add] at hp
  exact hp

theorem fireCheck_bullets (m : CMath F) (inp : Input F) (s : GameState F) :
    ∃ fired : List (CircleShape F), (fired = [] ∨ fired = s.smallCircles) ∧
      (fireCheck m inp s).bullets
        = s.bullets ++ fired.map (fun t => newBullet m t inp.mouseAtFire) := by
  unfold fireCheck
  split
  · split
    · exact ⟨s.smallCircles, Or.inr rfl, fireBullet_eq m _ _ _⟩
    · exact ⟨[], Or.inl rfl, by simp⟩
  · exact ⟨[], Or.inl rfl, by simp⟩

theorem tick_turret_distance (inp : Input ℝ) (s s' : GameState ℝ)
    (horb : s.orbitRadius = 50) (ht : tick realMath inp s = some s') :
    s'.largeCircleCenter = (movePlayer inp s).largeCircle.center ∧
    (∀ (i : Nat)
      (hi : i < (aimSmallCircles realMath inp
        (fireCheck realMath inp (movePlayer inp s))).smallCircles.length),
      ((aimSmallCircles realMath inp
          (fireCheck realMath inp (movePlayer inp s))).smallCircles[i]).center =
        ⟨(movePlayer inp s).largeCircle.center.x + 50 * Real.cos
            (Complex.arg ⟨inp.mouseAtAim.x - (movePlayer inp s).largeCircle.center.x,
                inp.mouseAtAim.y - (movePlayer inp s).largeCircle.center.y⟩
              + (i : ℝ) * Real.pi / 4),
          (movePlayer inp s).largeCircle.center.y + 50 * Real.sin
            (Complex.arg ⟨inp.mouseAtAim.x - (movePlayer inp s).largeCircle.center.x,
                inp.mouseAtAim.y - (movePlayer inp s).largeCircle.center.y⟩
              + (i : ℝ) * Real.pi / 4)⟩) ∧
    (∀ t ∈ s'.smallCircles,
      Real.sqrt ((t.center.x - s'.largeCircleCenter.x) * (t.center.x - s'.largeCircleCenter.x)
        + (t.center.y - s'.largeCircleCenter.y) * (t.center.y - s'.largeCircleCenter.y))
        = 50) := by
  obtain ⟨hcen, -, hmem⟩ := tick_center realMath inp s s' ht
  have hcc : (movePlayer inp s).largeCircleCenter = (movePlayer inp s).largeCircle.center := rfl
  rw [hcc] at hcen
  have hgen : ∀ (i : Nat)
      (hi : i < (aimSmallCircles realMath inp
        (fireCheck realMath inp (movePlayer inp s))).smallCircles.length),
      ((aimSmallCircles realMath inp
          (fireCheck realMath inp (movePlayer inp s))).smallCircles[i]).center =
        ⟨(movePlayer inp s).largeCircle.center.x + 50 * Real.cos
            (Complex.arg ⟨inp.mouseAtAim.x - (movePlayer inp s).largeCircle.center.x,
                inp.mouseAtAim.y - (movePlayer inp s).largeCircle.center.y⟩
              + (i : ℝ) * Real.pi / 4),
          (movePlayer inp s).largeCircle.center.y + 50 * Real.sin
            (Complex.arg ⟨inp.mouseAtAim.x - (movePlayer inp s).largeCircle.center.x,
                inp.mouseAtAim.y - (movePlayer inp s).largeCircle.center.y⟩
              + (i : ℝ) * Real.pi / 4)⟩ := by
    intro i hi
    rw [aimSmallCircles_getElem realMath inp _ i hi, (fireCheck_fields realMath inp _).2.2.2.2.1,
      (fireCheck_fields realMath inp _).2.2.2.2.2]
    have ho : (movePlayer inp s).orbitRadius = 50 := horb
    rw [ho, hcc]
    rfl
  refine ⟨hcen, hgen, ?_⟩
  intro t htm
  obtain ⟨i, hi, hti⟩ := List.getElem_of_mem (hmem t htm)
  rw [← hti, hgen i hi, hcen]
  have hsq : ∀ θ : ℝ, (50 * Real.cos θ) * (50 * Real.cos θ)
      + (50 * Real.sin θ) * (50 * Real.sin θ) = 50 * 50 := by
    intro θ
    have := Real.cos_sq_add_sin_sq θ
    nlinarith [this]
  simp only [add_sub_cancel_left]
  rw [hsq]
  exact Real.sqrt_mul_self (by norm_num)

theorem tick_bullets (m : CMath F) (inp : Input F) (s s' : GameState F)
    (h : tick m inp s = some s') :
    (s'.lastFireTime ≠ s.lastFireTime →
      s'.bullets = updateBullets m
        (s.bullets ++ s.smallCircles.map (fun t => newBullet m t inp.mouseAtFire))) ∧
    (s'.lastFireTime = s.lastFireTime → s'.bullets = updateBullets m s.bullets) := by
  have hf := tick_fields m inp s s' h
  have hc := fireCheck_lastFireTime m inp (movePlayer inp s)
  have hs : (movePlayer inp s).lastFireTime = s.lastFireTime := rfl
  have hb : (movePlayer inp s).bullets = s.bullets := rfl
  have hsc : (movePlayer inp s).smallCircles = s.smallCircles := rfl
  rw [hs, hb, hsc, ← hf.1] at hc
  constructor
  · intro hne
    rw [hf.2.1, (hc.2.1 (hc.1.mp hne)).2, fireBullet_eq]
  · intro heq
    have hn : ¬ (inp.mouseLeft = true ∧ inp.currentTime - s.lastFireTime > fireInterval) :=
      fun hh => (hc.1.mpr hh) heq
    rw [hf.2.1, (hc.2.2 hn).2]

theorem upgradeSmallCircles_getElem_opt (s : GameState F) (i : Nat)
    (hi : i < s.smallCircles.length) :
    (upgradeSmallCircles s).smallCircles[i]? = s.smallCircles[i]? := by
  unfold upgradeSmallCircles
  split
  · split
    · exact List.getElem?_append_left hi
    · rfl
  · rfl

theorem aimSmallCircles_length (m : CMath F) (inp : Input F) (s : GameState F) :
    (aimSmallCircles m inp (fireCheck m inp (movePlayer inp s))).smallCircles.length
      = s.smallCircles.length := by
  show (placeSmallCircles m _ _ _ 0 (fireCheck m inp (movePlayer inp s)).smallCircles).length
    = _
  rw [placeSmallCircles_length, (fireCheck_fields m inp _).2.1]
  rfl

theorem tick_smallCircles_getElem_opt (m : CMath F) (inp : Input F) (s s' : GameState F)
    (h : tick m inp s = some s') (i : Nat) (hi : i < s.smallCircles.length) :
    s'.smallCircles[i]?
      = (aimSmallCircles m inp (fireCheck m inp (movePlayer inp s))).smallCircles[i]? := by
  obtain ⟨s4, hsp, rfl⟩ := tick_some m inp s s' h
  obtain ⟨-, -, hc, -, -, -, -, -⟩ := spawnPhase_some inp _ s4 hsp
  have hlen := aimSmallCircles_length m inp s
  have h4 : (bulletPhase m (bulletSweep (playerSweep s4))).smallCircles
      = (aimSmallCircles m inp (fireCheck m inp (movePlayer inp s))).smallCircles := by
    show (playerSweep s4).smallCircles = _
    rw [playerSweep_smallCircles, hc]
  rw [upgradeSmallCircles_getElem_opt _ i (by rw [h4, hlen]; exact hi), h4]

/-- C10 (as amended). In a pass of the loop the fire check runs before the turret
positions are recomputed. For a pass that follows another pass of a run: when the pass
fires (it changes `lastFireTime`), the bullets at its end are `updateBullets` of the
bullets it started with followed by one new bullet per turret of the start of the
pass, and otherwise `updateBullets` of the bullets it started with; each such new
bullet is centred on the centre its turret has at the start of the pass, which is at
distance exactly 50 (the orbit radius) from the player centre of the previous pass.
At the end of each of the two passes the centre of turret `i` is the player centre of
that pass plus 50 along the angle `atan2(dy, dx) + i * pi / 4` towards the mouse, and
every turret's centre is at distance exactly 50 from the player centre of that pass. -/
theorem turret_positions (inp0 inp : Input ℝ) (s0 s s' : GameState ℝ)
    (hr : Reachable realMath s0) (h0 : tick realMath inp0 s0 = some s)
    (ht : tick realMath inp s = some s') :
    (s'.lastFireTime ≠ s.lastFireTime →
      s'.bullets = updateBullets realMath
        (s.bullets ++ s.smallCircles.map (fun t => newBullet realMath t inp.mouseAtFire))) ∧
    (s'.lastFireTime = s.lastFireTime → s'.bullets = updateBullets realMath s.bullets) ∧
    (∀ t ∈ s.smallCircles,
      (newBullet realMath t inp.mouseAtFire).shape.center = t.center ∧
      Real.sqrt ((t.center.x - s.largeCircleCenter.x) * (t.center.x - s.largeCircleCenter.x)
        + (t.center.y - s.largeCircleCenter.y) * (t.center.y - s.largeCircleCenter.y))
        = 50) ∧
    s.largeCircleCenter = (movePlayer inp0 s0).largeCircle.center ∧
    (∀ i : Nat, i < s0.smallCircles.length →
      ∃ t : CircleShape ℝ, s.smallCircles[i]? = some t ∧
        t.center =
          ⟨s.largeCircleCenter.x + 50 * Real.cos
              (Complex.arg ⟨inp0.mouseAtAim.x - s.largeCircleCenter.x,
                  inp0.mouseAtAim.y - s.largeCircleCenter.y⟩
                + (i : ℝ) * Real.pi / 4),
            s.largeCircleCenter.y + 50 * Real.sin
              (Complex.arg ⟨inp0.mouseAtAim.x - s.largeCircleCenter.x,
                  inp0.mouseAtAim.y - s.largeCircleCenter.y⟩
                + (i : ℝ) * Real.pi / 4)⟩) ∧
    s'.largeCircleCenter = (movePlayer inp s).largeCircle.center ∧
    (∀ i : Nat, i < s.smallCircles.length →
      ∃ t : CircleShape ℝ, s'.smallCircles[i]? = some t ∧
        t.center =
          ⟨s'.largeCircleCenter.x + 50 * Real.cos
              (Complex.arg ⟨inp.mouseAtAim.x - s'.largeCircleCenter.x,
                  inp.mouseAtAim.y - s'.largeCircleCenter.y⟩
                + (i : ℝ) * Real.pi / 4),
            s'.largeCircleCenter.y + 50 * Real.sin
              (Complex.arg ⟨inp.mouseAtAim.x - s'.largeCircleCenter.x,
                  inp.mouseAtAim.y - s'.largeCircleCenter.y⟩
                + (i : ℝ) * Real.pi / 4)⟩) ∧
    (∀ t ∈ s'.smallCircles,
      Real.sqrt ((t.center.x - s'.largeCircleCenter.x) * (t.center.x - s'.largeCircleCenter.x)
        + (t.center.y - s'.largeCircleCenter.y) * (t.center.y - s'.largeCircleCenter.y))
        = 50) := by
  have horb0 := reachable_orbitRadius realMath s0 hr
  have horb : s.orbitRadius = 50 := by
    rw [(tick_center realMath inp0 s0 s h0).2.1]; exact horb0
  obtain ⟨hc0, hgen0, hd0⟩ := tick_turret_distance inp0 s0 s horb0 h0
  obtain ⟨hc, hgen, hd⟩ := tick_turret_distance inp s s' horb ht
  have hb := tick_bullets realMath inp s s' ht
  refine ⟨hb.1, hb.2, ?_, hc0, ?_, hc, ?_, hd⟩
  · intro t htm
    exact ⟨newBullet_center realMath t inp.mouseAtFire, hd0 t htm⟩
  · intro i hi
    have hlen := aimSmallCircles_length realMath inp0 s0
    have hi' : i < (aimSmallCircles realMath inp0
        (fireCheck realMath inp0 (movePlayer inp0 s0))).smallCircles.length := by
      rw [hlen]; exact hi
    refine ⟨(aimSmallCircles realMath inp0
        (fireCheck realMath inp0 (movePlayer inp0 s0))).smallCircles[i], ?_, ?_⟩
    · rw [tick_smallCircles_getElem_opt realMath inp0 s0 s h0 i hi]
      exact List.getElem?_eq_getElem hi'
    · rw [hgen0 i hi', hc0]
  · intro i hi
    have hlen := aimSmallCircles_length realMath inp s
    have hi' : i < (aimSmallCircles realMath inp
        (fireCheck realMath inp (movePlayer inp s))).smallCircles.length := by
      rw [hlen]; exact hi
    refine ⟨(aimSmallCircles realMath inp
        (fireCheck realMath inp (movePlayer inp s))).smallCircles[i], ?_, ?_⟩
    · rw [tick_smallCircles_getElem_opt realMath inp s s' ht i hi]
      exact List.getElem?_eq_getElem hi'
    · rw [hgen i hi', hc]

/-! ### A first pass that fires -/

theorem first_shot_tick_isSome : (tick realMath firstShotInput initialState).isSome = true := by
  simp [tick, firstShotInput, initialState, movePlayer, fireCheck, aimSmallCircles, spawnPhase,
    spawnShape, placeShape, randomShapeGenerator, checkCollision, checkShapeCollision,
    Shape.getGlobalBounds, FloatRect.intersects, mapWidth, mapHeight, CircleShape.setPosition,
    fireInterval]
  norm_num

theorem first_shot_fireCheck :
    (fireCheck realMath firstShotInput (movePlayer firstShotInput initialState)).lastFireTime
        = 600000 ∧
      (fireCheck realMath firstShotInput (movePlayer firstShotInput initialState)).bullets
        = [newBullet realMath ⟨10, ⟨0, 0⟩⟩ ⟨3300, 2400⟩] := by
  constructor <;>
  simp [firstShotInput, initialState, movePlayer, fireCheck, fireInterval, fireBullet]

theorem fire_cooldown_witness :
    shotTimes realMath [firstShotInput] initialState = [600000] ∧
      (shotTimes realMath [firstShotInput] initialState).Pairwise
        (fun a b => b - a > fireInterval) ∧
      ∀ t ∈ shotTimes realMath [firstShotInput] initialState,
        t - (initialState : GameState ℝ).lastFireTime > fireInterval := by
  refine ⟨?_, (fire_cooldown realMath [firstShotInput] initialState).2⟩
  obtain ⟨s', hs'⟩ := Option.isSome_iff_exists.mp first_shot_tick_isSome
  have hf := (tick_fields realMath firstShotInput initialState s' hs').1
  rw [first_shot_fireCheck.1] at hf
  have h0 : (initialState : GameState ℝ).lastFireTime = 0 := rfl
  simp [shotTimes, hs', hf, h0]

/-- The first pass of a run. With the mouse button held and the clock at 600 ms the pass
fires, and the bullet it leaves was created centred on (10, 10), the centre of the
turret at its default position (0, 0), before the turret position was ever computed;
the player centre of that pass is (3200, 2400), not at distance 50 from it. -/
theorem first_shot_off_orbit :
    ∃ s' : GameState ℝ, tick realMath firstShotInput initialState = some s' ∧
      s'.lastFireTime ≠ (initialState : GameState ℝ).lastFireTime ∧
      s'.bullets = updateBullets realMath [newBullet realMath ⟨10, ⟨0, 0⟩⟩ ⟨3300, 2400⟩] ∧
      (newBullet realMath ⟨10, ⟨0, 0⟩⟩ ⟨3300, 2400⟩).shape.center = ⟨10, 10⟩ ∧
      s'.largeCircleCenter = ⟨3200, 2400⟩ ∧
      Real.sqrt (((10 : ℝ) - s'.largeCircleCenter.x) * ((10 : ℝ) - s'.largeCircleCenter.x)
        + ((10 : ℝ) - s'.largeCircleCenter.y) * ((10 : ℝ) - s'.largeCircleCenter.y)) ≠ 50 := by
  obtain ⟨s', hs'⟩ := Option.isSome_iff_exists.mp first_shot_tick_isSome
  have hf := tick_fields realMath firstShotInput initialState s' hs'
  have hcen : s'.largeCircleCenter = ⟨3200, 2400⟩ := by
    rw [(tick_center realMath firstShotInput initialState s' hs').1]
    show (⟨((6400 / 2 : ℕ) : ℝ) - 40 + 40, ((4800 / 2 : ℕ) : ℝ) - 40 + 40⟩ : Vector2f ℝ) = _
    norm_num
  refine ⟨s', hs', ?_, ?_, ?_, hcen, ?_⟩
  · rw [hf.1, first_shot_fireCheck.1]
    show (600000 : Int) ≠ 0
    norm_num
  · rw [hf.2.1, first_shot_fireCheck.2]
  · rw [CircleShape.center, newBullet_center]
    show (⟨0 + 10, 0 + 10⟩ : Vector2f ℝ) = _
    norm_num
  · rw [hcen]
    show Real.sqrt (((10 : ℝ) - 3200) * ((10 : ℝ) - 3200)
      + ((10 : ℝ) - 2400) * ((10 : ℝ) - 2400)) ≠ 50
    intro h
    have h2 := Real.mul_self_sqrt (show (0 : ℝ) ≤ ((10 : ℝ) - 3200) * ((10 : ℝ) - 3200)
      + ((10 : ℝ) - 2400) * ((10 : ℝ) - 2400) by norm_num)
    rw [h] at h2
    norm_num at h2

/-! ### A second pass that moves and fires -/

theorem move_shot_move : movePlayer moveShotInput afterIdleTick =
    { afterIdleTick with
      largeCircle := ⟨40, ⟨3160 + 3 / 10, 2360⟩⟩
      largeCircleCenter := ⟨3200 + 3 / 10, 2400⟩ } := by
  simp only [movePlayer, moveShotInput, afterIdleTick, Vector2f.add_def, CircleShape.move,
    playerSpeed]
  norm_num


theorem newBullet_movedShot :
    newBullet realMath ⟨10, ⟨3240, 2390⟩⟩ ⟨3300, 2400⟩ = movedShotBullet := by
  have hs : Real.sqrt (50 * 50 + 0 * 0) = 50 := by
    rw [show (50 : ℝ) * 50 + 0 * 0 = 50 * 50 by norm_num]
    exact Real.sqrt_mul_self (by norm_num)
  have hn : normalize realMath (⟨50, 0⟩ : Vector2f ℝ) = ⟨1, 0⟩ := by
    simp only [normalize, realMath_sqrt, hs, Vector2f.div]
    norm_num
  simp only [newBullet, movedShotBullet, CircleShape.setPosition, Vector2f.add_def,
    Vector2f.sub_def]
  norm_num [hn, Vector2f.scale, bulletSpeed, playerSpeed]

theorem updateBullets_movedShot :
    updateBullets realMath [movedShotBullet] = afterMoveShot.bullets := by
  have hs : Real.sqrt (6 / 5 * (6 / 5) + 0 * 0) = 6 / 5 := by
    rw [show (6 / 5 : ℝ) * (6 / 5) + 0 * 0 = 6 / 5 * (6 / 5) by norm_num]
    exact Real.sqrt_mul_self (by norm_num)
  simp only [updateBullets, movedShotBullet, afterMoveShot, List.map, Bullet.advance,
    CircleShape.move, Vector2f.add_def, realMath_sqrt, hs]
  simp [Bullet.expired, mapWidth, mapHeight, maxBulletDistance, viewWidth]
  norm_num

theorem move_shot_fire : fireCheck realMath moveShotInput
      { afterIdleTick with
        largeCircle := ⟨40, ⟨3160 + 3 / 10, 2360⟩⟩
        largeCircleCenter := ⟨3200 + 3 / 10, 2400⟩ }
    = { afterIdleTick with
        largeCircle := ⟨40, ⟨3160 + 3 / 10, 2360⟩⟩
        largeCircleCenter := ⟨3200 + 3 / 10, 2400⟩
        bullets := [movedShotBullet]
        lastFireTime := 600000 } := by
  simp [moveShotInput, afterIdleTick, fireCheck, fireInterval, fireBullet, newBullet_movedShot]

theorem move_shot_aim : aimSmallCircles realMath moveShotInput
      { afterIdleTick with
        largeCircle := ⟨40, ⟨3160 + 3 / 10, 2360⟩⟩
        largeCircleCenter := ⟨3200 + 3 / 10, 2400⟩
        bullets := [movedShotBullet]
        lastFireTime := 600000 }
    = { afterMoveShot with
        shapesToDraw := [.rectangle ⟨⟨30, 30⟩, ⟨0, 0⟩⟩]
        bullets := [movedShotBullet] } := by
  have harg : Complex.arg ⟨3300 - (3200 + 3 / 10), 0⟩ = 0 :=
    Complex.arg_ofReal_of_nonneg (by norm_num : (0:ℝ) ≤ 3300 - (3200 + 3 / 10))
  simp only [aimSmallCircles, moveShotInput, afterIdleTick, afterMoveShot, placeSmallCircles,
    Vector2f.sub_def, CircleShape.setPosition, realMath, sub_self, harg]
  norm_num

theorem move_shot_spawn : spawnPhase moveShotInput
      { afterMoveShot with
        shapesToDraw := [.rectangle ⟨⟨30, 30⟩, ⟨0, 0⟩⟩]
        bullets := [movedShotBullet] }
    = some { afterMoveShot with bullets := [movedShotBullet] } := by
  simp [spawnPhase, moveShotInput, afterMoveShot, spawnShape, placeShape, randomShapeGenerator,
    checkCollision, checkShapeCollision, Shape.getGlobalBounds, FloatRect.intersects, mapWidth,
    mapHeight]
  norm_num

theorem move_shot_rest : upgradeSmallCircles (bulletPhase realMath (bulletSweep (playerSweep
      { afterMoveShot with bullets := [movedShotBullet] }))) = afterMoveShot := by
  have h1 : playerSweep { afterMoveShot with bullets := [movedShotBullet] }
      = { afterMoveShot with bullets := [movedShotBullet] } := by
    simp [playerSweep, afterMoveShot, playerCollides, checkShapeCollision, Shape.getGlobalBounds,
      FloatRect.intersects]
    norm_num
  have h2 : bulletSweep { afterMoveShot with bullets := [movedShotBullet] }
      = { afterMoveShot with bullets := [movedShotBullet] } := by
    simp [bulletSweep, sweepShapes_zero, afterMoveShot, hitByBullet, awardSum, bulletAward,
      movedShotBullet, checkShapeCollision, Shape.getGlobalBounds, FloatRect.intersects]
    norm_num
  have h3 : bulletPhase realMath { afterMoveShot with bullets := [movedShotBullet] }
      = afterMoveShot := by
    simp only [bulletPhase, updateBullets_movedShot]
  have h4 : upgradeSmallCircles afterMoveShot = afterMoveShot := by
    simp [upgradeSmallCircles, afterMoveShot]
  rw [h1, h2, h3, h4]

theorem move_shot_tick_eq : tick realMath moveShotInput afterIdleTick = some afterMoveShot := by
  unfold tick
  simp only [move_shot_move, move_shot_fire, move_shot_aim, move_shot_spawn, move_shot_rest]

/-- C10, counterexample. A first pass with no key held puts the turret's centre at
(3250, 2400), at distance 50 from the player centre (3200, 2400). In the second pass
the key D and the mouse button are held at clock reading 600 ms. The pass fires, and
the one bullet in its result is `updateBullets` of a bullet created with distance 0
centred on (3250, 2400), the turret centre left by the first pass, while the player
centre of the second pass is (3200.3, 2400): the bullet started 49.7 from it, not 50. -/
theorem moved_shot_off_orbit :
    tick realMath idleInput initialState = some afterIdleTick ∧
      tick realMath moveShotInput afterIdleTick = some afterMoveShot ∧
      afterMoveShot.lastFireTime ≠ afterIdleTick.lastFireTime ∧
      afterMoveShot.bullets = updateBullets realMath (afterIdleTick.bullets ++ [movedShotBullet]) ∧
      movedShotBullet.distanceTravelled = 0 ∧
      movedShotBullet.shape.center = ⟨3250, 2400⟩ ∧
      afterMoveShot.largeCircleCenter = ⟨3200 + 3 / 10, 2400⟩ ∧
      afterMoveShot.largeCircleCenter = afterMoveShot.largeCircle.center ∧
      Real.sqrt
        ((movedShotBullet.shape.center.x - afterMoveShot.largeCircleCenter.x)
            * (movedShotBullet.shape.center.x - afterMoveShot.largeCircleCenter.x)
          + (movedShotBullet.shape.center.y - afterMoveShot.largeCircleCenter.y)
            * (movedShotBullet.shape.center.y - afterMoveShot.largeCircleCenter.y)) ≠ 50 := by
  refine ⟨idle_tick_eq, move_shot_tick_eq, ?_, ?_, rfl, ?_, rfl, ?_, ?_⟩
  · show (600000 : Int) ≠ 0
    norm_num
  · rw [← updateBullets_movedShot]
    rfl
  · simp only [movedShotBullet, CircleShape.center, Vector2f.add_def]
    norm_num
  · simp only [afterMoveShot, CircleShape.center, Vector2f.add_def]
    norm_num
  · simp only [movedShotBullet, afterMoveShot, CircleShape.center, Vector2f.add_def]
    have e : ((3245 : ℝ) + 5 - (3200 + 3 / 10)) * ((3245 : ℝ) + 5 - (3200 + 3 / 10))
      + ((2395 : ℝ) + 5 - 2400) * ((2395 : ℝ) + 5 - 2400) = (497 / 10) * (497 / 10) := by
      norm_num
    rw [e, Real.sqrt_mul_self (by norm_num)]
    norm_num

theorem turret_positions_witness :
    Reachable realMath initialState ∧
    tick realMath idleInput initialState = some afterIdleTick ∧
    tick realMath moveShotInput afterIdleTick = some afterMoveShot ∧
    afterMoveShot.lastFireTime ≠ afterIdleTick.lastFireTime ∧
    afterIdleTick.smallCircles = [⟨10, ⟨3240, 2390⟩⟩] ∧
    ((afterMoveShot.lastFireTime ≠ afterIdleTick.lastFireTime →
      afterMoveShot.bullets = updateBullets realMath
        (afterIdleTick.bullets ++ afterIdleTick.smallCircles.map
          (fun t => newBullet realMath t moveShotInput.mouseAtFire))) ∧
    (afterMoveShot.lastFireTime = afterIdleTick.lastFireTime →
      afterMoveShot.bullets = updateBullets realMath afterIdleTick.bullets) ∧
    (∀ t ∈ afterIdleTick.smallCircles,
      (newBullet realMath t moveShotInput.mouseAtFire).shape.center = t.center ∧
      Real.sqrt ((t.center.x - afterIdleTick.largeCircleCenter.x)
          * (t.center.x - afterIdleTick.largeCircleCenter.x)
        + (t.center.y - afterIdleTick.largeCircleCenter.y)
          * (t.center.y - afterIdleTick.largeCircleCenter.y))
        = 50) ∧
    afterIdleTick.largeCircleCenter = (movePlayer idleInput initialState).largeCircle.center ∧
    (∀ i : Nat, i < (initialState : GameState ℝ).smallCircles.length →
      ∃ t : CircleShape ℝ, afterIdleTick.smallCircles[i]? = some t ∧
        t.center =
          ⟨afterIdleTick.largeCircleCenter.x + 50 * Real.cos
              (Complex.arg ⟨idleInput.mouseAtAim.x - afterIdleTick.largeCircleCenter.x,
                  idleInput.mouseAtAim.y - afterIdleTick.largeCircleCenter.y⟩
                + (i : ℝ) * Real.pi / 4),
            afterIdleTick.largeCircleCenter.y + 50 * Real.sin
              (Complex.arg ⟨idleInput.mouseAtAim.x - afterIdleTick.largeCircleCenter.x,
                  idleInput.mouseAtAim.y - afterIdleTick.largeCircleCenter.y⟩
                + (i : ℝ) * Real.pi / 4)⟩) ∧
    afterMoveShot.largeCircleCenter
      = (movePlayer moveShotInput afterIdleTick).largeCircle.center ∧
    (∀ i : Nat, i < afterIdleTick.smallCircles.length →
      ∃ t : CircleShape ℝ, afterMoveShot.smallCircles[i]? = some t ∧
        t.center =
          ⟨afterMoveShot.largeCircleCenter.x + 50 * Real.cos
              (Complex.arg ⟨moveShotInput.mouseAtAim.x - afterMoveShot.largeCircleCenter.x,
                  moveShotInput.mouseAtAim.y - afterMoveShot.largeCircleCenter.y⟩
                + (i : ℝ) * Real.pi / 4),
            afterMoveShot.largeCircleCenter.y + 50 * Real.sin
              (Complex.arg ⟨moveShotInput.mouseAtAim.x - afterMoveShot.largeCircleCenter.x,
                  moveShotInput.mouseAtAim.y - afterMoveShot.largeCircleCenter.y⟩
                + (i : ℝ) * Real.pi / 4)⟩) ∧
    (∀ t ∈ afterMoveShot.smallCircles,
      Real.sqrt ((t.center.x - afterMoveShot.largeCircleCenter.x)
          * (t.center.x - afterMoveShot.largeCircleCenter.x)
        + (t.center.y - afterMoveShot.largeCircleCenter.y)
          * (t.center.y - afterMoveShot.largeCircleCenter.y))
        = 50)) :=
  ⟨⟨[], rfl⟩, idle_tick_eq, move_shot_tick_eq,
    (by show (600000 : Int) ≠ 0; norm_num), rfl,
    turret_positions idleInput moveShotInput initialState afterIdleTick afterMoveShot
      ⟨[], rfl⟩ idle_tick_eq move_shot_tick_eq⟩

/-! ### A run that reaches the turret upgrade -/

theorem newBullet_inert :
    newBullet realMath ⟨10, ⟨3240, 2390⟩⟩ ⟨3250, 2400⟩ = inertBullet := by
  simp only [newBullet, inertBullet, CircleShape.setPosition, Vector2f.add_def,
    Vector2f.sub_def, Vector2f.scale]
  norm_num [normalize_zero]

theorem kill_move (inp : Input ℝ) (s : GameState ℝ)
    (hA : inp.keyA = false) (hW : inp.keyW = false) (hD : inp.keyD = false)
    (hS : inp.keyS = false) (hc : s.largeCircleCenter = s.largeCircle.center) :
    movePlayer inp s = s := by
  cases s
  simp only [movePlayer, hA, hW, hD, hS] at *
  simp [hc, CircleShape.center]


theorem killState_center (n : Int) :
    (killState n).largeCircleCenter = (killState n).largeCircle.center := by
  simp only [killState, afterIdleTick, CircleShape.center, Vector2f.add_def]
  norm_num

theorem kill_aim (inp : Input ℝ) (n : Int) (h : inp.mouseAtAim = ⟨3250, 2400⟩) :
    aimSmallCircles realMath inp (killState n) = killState n := by
  have harg : Complex.arg ⟨50, 0⟩ = 0 := Complex.arg_ofReal_of_nonneg (by norm_num : (0:ℝ) ≤ 50)
  simp only [aimSmallCircles, h, killState, afterIdleTick, placeSmallCircles, Vector2f.sub_def,
    CircleShape.setPosition, realMath]
  norm_num [harg]

theorem kill_spawn (inp : Input ℝ) (n : Int) (hv : inp.randVariant = 70)
    (hd : inp.randDraws = [(3245, 2395)]) :
    spawnPhase inp (killState n) = some
      { killState n with
        shapesToDraw := [.rectangle ⟨⟨30, 30⟩, ⟨0, 0⟩⟩, .circle ⟨25, ⟨3245, 2395⟩⟩] } := by
  simp [spawnPhase, hv, hd, killState, afterIdleTick, spawnShape, placeShape,
    randomShapeGenerator, checkCollision, checkShapeCollision, Shape.getGlobalBounds,
    FloatRect.intersects, mapWidth, mapHeight]
  norm_num

theorem kill_sweeps (n : Int) :
    bulletPhase realMath (bulletSweep (playerSweep
      { killState n with
        shapesToDraw := [.rectangle ⟨⟨30, 30⟩, ⟨0, 0⟩⟩, .circle ⟨25, ⟨3245, 2395⟩⟩] }))
      = killState (n + 2) := by
  have h1 : playerSweep
      { killState n with
        shapesToDraw := [.rectangle ⟨⟨30, 30⟩, ⟨0, 0⟩⟩, .circle ⟨25, ⟨3245, 2395⟩⟩] }
      = { killState n with
        shapesToDraw := [.rectangle ⟨⟨30, 30⟩, ⟨0, 0⟩⟩, .circle ⟨25, ⟨3245, 2395⟩⟩] } := by
    simp [playerSweep, killState, afterIdleTick, playerCollides, checkShapeCollision,
      Shape.getGlobalBounds, FloatRect.intersects]
    norm_num
  have h2 : bulletSweep
      { killState n with
        shapesToDraw := [.rectangle ⟨⟨30, 30⟩, ⟨0, 0⟩⟩, .circle ⟨25, ⟨3245, 2395⟩⟩] }
      = killState (n + 2) := by
    simp [bulletSweep, sweepShapes_zero, killState, afterIdleTick, hitByBullet, awardSum,
      bulletAward, inertBullet, checkShapeCollision, Shape.getGlobalBounds,
      FloatRect.intersects]
    norm_num
  have h3 : bulletPhase realMath (killState (n + 2)) = killState (n + 2) := by
    simp [bulletPhase, killState, afterIdleTick, updateBullets, inertBullet, Bullet.advance,
      Bullet.expired, CircleShape.move, Vector2f.add_def, realMath, mapWidth, mapHeight,
      maxBulletDistance, viewWidth]
    norm_num
  rw [h1, h2, h3]

theorem kill_tick (n : Int) (hn : n + 2 < 50) :
    tick realMath killInput (killState n) = some (killState (n + 2)) := by
  have hu : upgradeSmallCircles (killState (n + 2)) = killState (n + 2) := by
    have : ¬ (n + 2 ≥ 50) := by omega
    simp [upgradeSmallCircles, killState, this]
  unfold tick
  simp only [kill_move killInput (killState n) rfl rfl rfl rfl (killState_center n)]
  have hf : fireCheck realMath killInput (killState n) = killState n := by
    simp [fireCheck, killInput]
  simp only [hf, kill_aim killInput n rfl, kill_spawn killInput n rfl rfl, kill_sweeps, hu]

theorem kill_tick_upgrade :
    tick realMath killInput (killState 48) = some upgradedState := by
  have hu : upgradeSmallCircles (killState (48 + 2)) = upgradedState := by
    simp [upgradeSmallCircles, killState, upgradedState, afterIdleTick]
  unfold tick
  simp only [kill_move killInput (killState 48) rfl rfl rfl rfl (killState_center 48)]
  have hf : fireCheck realMath killInput (killState 48) = killState 48 := by
    simp [fireCheck, killInput]
  simp only [hf, kill_aim killInput 48 rfl, kill_spawn killInput 48 rfl rfl, kill_sweeps, hu]

theorem fire_kill_tick :
    tick realMath fireKillInput afterIdleTick = some (killState 2) := by
  have hm : movePlayer fireKillInput afterIdleTick = afterIdleTick :=
    kill_move _ _ rfl rfl rfl rfl (by
      simp only [afterIdleTick, CircleShape.center, Vector2f.add_def]; norm_num)
  have hf : fireCheck realMath fireKillInput afterIdleTick = killState 0 := by
    simp [fireCheck, fireKillInput, killInput, afterIdleTick, fireInterval, fireBullet,
      newBullet_inert, killState]
  have hu : upgradeSmallCircles (killState (0 + 2)) = killState 2 := by
    simp [upgradeSmallCircles, killState]
  unfold tick
  simp only [hm, hf, kill_aim fireKillInput 0 rfl, kill_spawn fireKillInput 0 rfl rfl,
    kill_sweeps, hu]

theorem run_kill : ∀ (k : Nat) (n : Int), n + 2 * (k : Int) < 50 →
    runTicks realMath (List.replicate k killInput) (killState n)
      = some (killState (n + 2 * (k : Int))) := by
  intro k
  induction k with
  | zero => intro n _; simp [runTicks]
  | succ k ih =>
    intro n hn
    have h1 : n + 2 < 50 := by push_cast at hn; omega
    rw [List.replicate_succ, runTicks, kill_tick n h1]
    simp only []
    rw [ih (n + 2) (by push_cast at hn; omega)]
    congr 2
    push_cast
    ring

theorem reachable_killState : Reachable realMath (killState 48) := by
  refine ⟨idleInput :: fireKillInput :: List.replicate 23 killInput, ?_⟩
  rw [runTicks, idle_tick_eq]
  simp only []
  rw [runTicks, fire_kill_tick]
  simp only []
  rw [run_kill 23 2 (by norm_num)]
  norm_num

theorem runTicks_append (m : CMath F) :
    ∀ (inps : List (Input F)) (inp : Input F) (s s1 s2 : GameState F),
      runTicks m inps s = some s1 → tick m inp s1 = some s2 →
      runTicks m (inps ++ [inp]) s = some s2 := by
  intro inps
  induction inps with
  | nil =>
    intro inp s s1 s2 h1 h2
    cases Option.some.inj h1
    simp [runTicks, h2]
  | cons a rest ih =>
    intro inp s s1 s2 h1 h2
    rw [List.cons_append]
    unfold runTicks
    unfold runTicks at h1
    split at h1
    · exact absurd h1 (by simp)
    · rename_i s' hs'
      exact ih inp s' s1 s2 h1 h2

theorem reachable_upgradedState : Reachable realMath upgradedState := by
  obtain ⟨inps, h⟩ := reachable_killState
  exact ⟨inps ++ [killInput], runTicks_append realMath inps killInput _ _ _ h kill_tick_upgrade⟩

theorem upgraded_tick_isSome : (tick realMath killInput upgradedState).isSome = true := by
  unfold tick
  simp [killInput, upgradedState, killState, afterIdleTick, movePlayer, fireCheck,
    aimSmallCircles, spawnPhase,
    spawnShape, placeShape, randomShapeGenerator, checkCollision, checkShapeCollision,
    Shape.getGlobalBounds, FloatRect.intersects, mapWidth, mapHeight]
  norm_num

theorem smallCircles_upgrade_witness :
    (Reachable realMath (killState 48) ∧
      tick realMath killInput (killState 48) = some upgradedState ∧
      (killState 48).smallCircles.length = 1 ∧ upgradedState.score = 50 ∧
      upgradedState.smallCircles.length = 2 ∧
      (((killState 48).smallCircles.length = 1 ∨ (killState 48).smallCircles.length = 2) ∧
        (upgradedState.smallCircles.length = 1 ∨ upgradedState.smallCircles.length = 2) ∧
        (killState 48).smallCircles.length ≤ upgradedState.smallCircles.length ∧
        (50 ≤ upgradedState.score → upgradedState.smallCircles.length = 2) ∧
        ((killState 48).smallCircles.length = 2 → upgradedState.smallCircles.length = 2))) ∧
    (∃ s' : GameState ℝ, Reachable realMath upgradedState ∧
      tick realMath killInput upgradedState = some s' ∧
      ((upgradedState.smallCircles.length = 1 ∨ upgradedState.smallCircles.length = 2) ∧
        (s'.smallCircles.length = 1 ∨ s'.smallCircles.length = 2) ∧
        upgradedState.smallCircles.length ≤ s'.smallCircles.length ∧
        (50 ≤ s'.score → s'.smallCircles.length = 2) ∧
        (upgradedState.smallCircles.length = 2 → s'.smallCircles.length = 2))) := by
  refine ⟨⟨reachable_killState, kill_tick_upgrade, rfl, rfl, rfl,
    smallCircles_upgrade realMath killInput (killState 48) upgradedState reachable_killState
      kill_tick_upgrade⟩, ?_⟩
  obtain ⟨s', hs'⟩ := Option.isSome_iff_exists.mp upgraded_tick_isSome
  exact ⟨s', reachable_upgradedState, hs',
    smallCircles_upgrade realMath killInput upgradedState s' reachable_upgradedState hs'⟩

end Proofs

end DiepIO
